import Mathlib

/-!
Shallow embedding of the date/time cast format-element engine in
`zetasql/public/functions/cast_date_time.cc`: the tokenizer over format
strings, the casing inferrer, the structural validator, the parser for
timestamp strings, and the per-element formatter, together with the public
entry points relevant to the verified claims.

Strings are embedded as lists of bytes (`List Nat`), matching the
byte-oriented `absl::string_view` processing of the source.  External
collaborators (the UTF-8 validator, ICU whitespace handling, the integer
scanner of `parse_date_time_utils`, and the civil-time library) are not part
of the source under verification; they are modelled from the specification
and carry a doc comment saying so.
-/

set_option maxHeartbeats 1000000

deriving instance DecidableEq for Except

namespace Zetasql

/-- `absl::ascii_toupper` applied to one byte: lowercase ASCII letters map to
the corresponding uppercase letters, every other byte is unchanged. -/
def upperByte (b : Nat) : Nat :=
  if 97 ≤ b ∧ b ≤ 122 then b - 32 else b

/-- `absl::AsciiStrToUpper` over a byte string. -/
def asciiStrToUpper (s : List Nat) : List Nat :=
  s.map upperByte

/-- `absl::ascii_isalpha` on a byte. -/
def asciiIsAlpha (b : Nat) : Bool :=
  decide ((65 ≤ b ∧ b ≤ 90) ∨ (97 ≤ b ∧ b ≤ 122))

/-- `absl::ascii_islower` on a byte. -/
def asciiIsLower (b : Nat) : Bool :=
  decide (97 ≤ b ∧ b ≤ 122)

/-- `absl::ascii_isupper` on a byte. -/
def asciiIsUpper (b : Nat) : Bool :=
  decide (65 ≤ b ∧ b ≤ 90)

/-- ASCII decimal digit test on a byte. -/
def isDigitByte (b : Nat) : Bool :=
  decide (48 ≤ b ∧ b ≤ 57)

/-- Modelled from the spec: the external UTF-8 facility.  Decodes one code
point from the front of a byte string, returning the code point and the
number of bytes consumed, or `none` on an ill-formed sequence (RFC 3629
well-formedness: no overlong forms, no surrogates, nothing above U+10FFFF). -/
def utf8DecodeOne : List Nat → Option (Nat × Nat)
  | [] => none
  | b :: rest =>
    if b < 128 then some (b, 1)
    else if 194 ≤ b ∧ b ≤ 223 then
      match rest with
      | b1 :: _ =>
        if 128 ≤ b1 ∧ b1 ≤ 191 then some ((b - 192) * 64 + (b1 - 128), 2) else none
      | [] => none
    else if 224 ≤ b ∧ b ≤ 239 then
      match rest with
      | b1 :: b2 :: _ =>
        let lo1 : Nat := if b = 224 then 160 else 128
        let hi1 : Nat := if b = 237 then 159 else 191
        if (lo1 ≤ b1 ∧ b1 ≤ hi1) ∧ (128 ≤ b2 ∧ b2 ≤ 191) then
          some ((b - 224) * 4096 + (b1 - 128) * 64 + (b2 - 128), 3)
        else none
      | _ => none
    else if 240 ≤ b ∧ b ≤ 244 then
      match rest with
      | b1 :: b2 :: b3 :: _ =>
        let lo1 : Nat := if b = 240 then 144 else 128
        let hi1 : Nat := if b = 244 then 143 else 191
        if (lo1 ≤ b1 ∧ b1 ≤ hi1) ∧ (128 ≤ b2 ∧ b2 ≤ 191) ∧ (128 ≤ b3 ∧ b3 ≤ 191) then
          some ((b - 240) * 262144 + (b1 - 128) * 4096 + (b2 - 128) * 64 + (b3 - 128), 4)
        else none
      | _ => none
    else none

/-- Fuel-driven worker for `IsWellFormedUTF8`; the fuel is an upper bound on
the number of decoded code points (each consumes at least one byte). -/
def isWellFormedUTF8Aux : Nat → List Nat → Bool
  | _, [] => true
  | 0, _ :: _ => false
  | fuel + 1, s =>
    match utf8DecodeOne s with
    | none => false
    | some (_, n) => isWellFormedUTF8Aux fuel (s.drop n)

/-- Modelled from the spec: `IsWellFormedUTF8` of `zetasql/common/utf_util`,
the external UTF-8 validator consumed by the cast entry points. -/
def IsWellFormedUTF8 (s : List Nat) : Bool :=
  isWellFormedUTF8Aux s.length s

/-- Modelled from the spec: ICU `u_isUWhiteSpace`, the Unicode White_Space
property of a code point. -/
def isUWhiteSpace (cp : Nat) : Bool :=
  decide (cp ∈ [9, 10, 11, 12, 13, 32, 133, 160, 5760,
    8192, 8193, 8194, 8195, 8196, 8197, 8198, 8199, 8200, 8201, 8202,
    8232, 8233, 8239, 8287, 12288])

/-- Fuel-driven worker for `TrimLeadingUnicodeWhiteSpaces`. -/
def trimLeadingUWSAux : Nat → List Nat → Nat
  | 0, _ => 0
  | fuel + 1, s =>
    match utf8DecodeOne s with
    | none => 0
    | some (cp, n) =>
      if isUWhiteSpace cp then n + trimLeadingUWSAux fuel (s.drop n) else 0

/-- `TrimLeadingUnicodeWhiteSpaces`: the number of leading bytes of the input
that form well-formed Unicode whitespace code points (decoding stops at the
first non-whitespace or ill-formed position). -/
def TrimLeadingUnicodeWhiteSpaces (s : List Nat) : Nat :=
  trimLeadingUWSAux s.length s

/-- `FormatElementType`: the closed enumeration of format element tags. -/
inductive FormatElementType
  | kFormatElementTypeUnspecified
  | kSimpleLiteral
  | kDoubleQuotedLiteral
  | kWhitespace
  | kYYYY
  | kYYY
  | kYY
  | kY
  | kRRRR
  | kRR
  | kYCommaYYY
  | kIYYY
  | kIYY
  | kIY
  | kI
  | kSYYYY
  | kYEAR
  | kSYEAR
  | kMM
  | kMON
  | kMONTH
  | kRM
  | kDDD
  | kDD
  | kD
  | kDAY
  | kDY
  | kJ
  | kHH
  | kHH12
  | kHH24
  | kMI
  | kSS
  | kSSSSS
  | kFFN
  | kAM
  | kPM
  | kAMWithDots
  | kPMWithDots
  | kTZH
  | kTZM
  | kCC
  | kSCC
  | kQ
  | kIW
  | kWW
  | kW
  | kAD
  | kBC
  | kADWithDots
  | kBCWithDots
  | kSP
  | kTH
  | kSPTH
  | kTHSP
  | kFM
deriving DecidableEq

/-- `FormatElementCategory`: the coarse grouping used by the validator. -/
inductive FormatElementCategory
  | kFormatElementCategoryUnspecified
  | kLiteral
  | kYear
  | kMonth
  | kDay
  | kHour
  | kMinute
  | kSecond
  | kMeridianIndicator
  | kTimeZone
  | kCentury
  | kQuarter
  | kWeek
  | kEraIndicator
  | kMisc
deriving DecidableEq

/-- `GetFormatElementCategoryFromType`: the total map from element type to
category. -/
def GetFormatElementCategoryFromType : FormatElementType → FormatElementCategory
  | .kFormatElementTypeUnspecified => .kFormatElementCategoryUnspecified
  | .kSimpleLiteral | .kDoubleQuotedLiteral | .kWhitespace => .kLiteral
  | .kYYYY | .kYYY | .kYY | .kY | .kRRRR | .kRR | .kYCommaYYY
  | .kIYYY | .kIYY | .kIY | .kI | .kSYYYY | .kYEAR | .kSYEAR => .kYear
  | .kMM | .kMON | .kMONTH | .kRM => .kMonth
  | .kDDD | .kDD | .kD | .kDAY | .kDY | .kJ => .kDay
  | .kHH | .kHH12 | .kHH24 => .kHour
  | .kMI => .kMinute
  | .kSS | .kSSSSS | .kFFN => .kSecond
  | .kAM | .kPM | .kAMWithDots | .kPMWithDots => .kMeridianIndicator
  | .kTZH | .kTZM => .kTimeZone
  | .kCC | .kSCC => .kCentury
  | .kQ => .kQuarter
  | .kIW | .kWW | .kW => .kWeek
  | .kAD | .kBC | .kADWithDots | .kBCWithDots => .kEraIndicator
  | .kSP | .kTH | .kSPTH | .kTHSP | .kFM => .kMisc

/-- `FormatCasingType`: the output casing policy of a format element. -/
inductive FormatCasingType
  | kFormatCasingTypeUnspecified
  | kPreserveCase
  | kAllLettersUppercase
  | kAllLettersLowercase
  | kOnlyFirstLetterUppercase
deriving DecidableEq

/-- `DateTimeFormatElement`: one tokenized format element.  Field order:
type, category, len_in_format_str, literal_value, subsecond_digit_count,
format_casing_type. -/
structure DateTimeFormatElement where
  type : FormatElementType
  category : FormatElementCategory
  len_in_format_str : Nat
  literal_value : List Nat
  subsecond_digit_count : Nat
  format_casing_type : FormatCasingType
deriving DecidableEq

/-- Trie entry chunk 1 of `InitializeFormatElementTypeTrie` (literals and
year elements), as upper-case byte strings. -/
def trieEntries1 : List (List Nat × FormatElementType) :=
  [ ([45], .kSimpleLiteral),                -- "-"
    ([46], .kSimpleLiteral),                -- "."
    ([47], .kSimpleLiteral),                -- "/"
    ([44], .kSimpleLiteral),                -- ","
    ([39], .kSimpleLiteral),                -- "'"
    ([59], .kSimpleLiteral),                -- ";"
    ([58], .kSimpleLiteral),                -- ":"
    ([34], .kDoubleQuotedLiteral),          -- double quote
    ([32], .kWhitespace),                   -- space
    ([89, 89, 89, 89], .kYYYY),             -- "YYYY"
    ([89, 89, 89], .kYYY),                  -- "YYY"
    ([89, 89], .kYY),                       -- "YY"
    ([89], .kY),                            -- "Y"
    ([82, 82, 82, 82], .kRRRR),             -- "RRRR"
    ([82, 82], .kRR),                       -- "RR"
    ([89, 44, 89, 89, 89], .kYCommaYYY),    -- "Y,YYY"
    ([73, 89, 89, 89], .kIYYY),             -- "IYYY"
    ([73, 89, 89], .kIYY) ]                 -- "IYY"

/-- Trie entry chunk 2 (remaining year, month, day, hour, minute, second
elements). -/
def trieEntries2 : List (List Nat × FormatElementType) :=
  [ ([73, 89], .kIY),                       -- "IY"
    ([73], .kI),                            -- "I"
    ([83, 89, 89, 89, 89], .kSYYYY),        -- "SYYYY"
    ([89, 69, 65, 82], .kYEAR),             -- "YEAR"
    ([83, 89, 69, 65, 82], .kSYEAR),        -- "SYEAR"
    ([77, 77], .kMM),                       -- "MM"
    ([77, 79, 78], .kMON),                  -- "MON"
    ([77, 79, 78, 84, 72], .kMONTH),        -- "MONTH"
    ([82, 77], .kRM),                       -- "RM"
    ([68, 68, 68], .kDDD),                  -- "DDD"
    ([68, 68], .kDD),                       -- "DD"
    ([68], .kD),                            -- "D"
    ([68, 65, 89], .kDAY),                  -- "DAY"
    ([68, 89], .kDY),                       -- "DY"
    ([74], .kJ),                            -- "J"
    ([72, 72], .kHH),                       -- "HH"
    ([72, 72, 49, 50], .kHH12),             -- "HH12"
    ([72, 72, 50, 52], .kHH24) ]            -- "HH24"

/-- Trie entry chunk 3 (minute, second, fractional second, meridian and
time-zone elements). -/
def trieEntries3 : List (List Nat × FormatElementType) :=
  [ ([77, 73], .kMI),                       -- "MI"
    ([83, 83], .kSS),                       -- "SS"
    ([83, 83, 83, 83, 83], .kSSSSS),        -- "SSSSS"
    ([70, 70, 49], .kFFN),                  -- "FF1"
    ([70, 70, 50], .kFFN),                  -- "FF2"
    ([70, 70, 51], .kFFN),                  -- "FF3"
    ([70, 70, 52], .kFFN),                  -- "FF4"
    ([70, 70, 53], .kFFN),                  -- "FF5"
    ([70, 70, 54], .kFFN),                  -- "FF6"
    ([70, 70, 55], .kFFN),                  -- "FF7"
    ([70, 70, 56], .kFFN),                  -- "FF8"
    ([70, 70, 57], .kFFN),                  -- "FF9"
    ([65, 77], .kAM),                       -- "AM"
    ([80, 77], .kPM),                       -- "PM"
    ([65, 46, 77, 46], .kAMWithDots),       -- "A.M."
    ([80, 46, 77, 46], .kPMWithDots),       -- "P.M."
    ([84, 90, 72], .kTZH),                  -- "TZH"
    ([84, 90, 77], .kTZM) ]                 -- "TZM"

/-- Trie entry chunk 4 (century, quarter, week, era and misc elements). -/
def trieEntries4 : List (List Nat × FormatElementType) :=
  [ ([67, 67], .kCC),                       -- "CC"
    ([83, 67, 67], .kSCC),                  -- "SCC"
    ([81], .kQ),                            -- "Q"
    ([73, 87], .kIW),                       -- "IW"
    ([87, 87], .kWW),                       -- "WW"
    ([87], .kW),                            -- "W"
    ([65, 68], .kAD),                       -- "AD"
    ([66, 67], .kBC),                       -- "BC"
    ([65, 46, 68, 46], .kADWithDots),       -- "A.D."
    ([66, 46, 67, 46], .kBCWithDots),       -- "B.C."
    ([83, 80], .kSP),                       -- "SP"
    ([84, 72], .kTH),                       -- "TH"
    ([83, 80, 84, 72], .kSPTH),             -- "SPTH"
    ([84, 72, 83, 80], .kTHSP),             -- "THSP"
    ([70, 77], .kFM) ]                      -- "FM"

/-- The key/value pairs inserted into the format element type trie by
`InitializeFormatElementTypeTrie`, in insertion order. -/
def formatElementTypeTrieEntries : List (List Nat × FormatElementType) :=
  trieEntries1 ++ trieEntries2 ++ trieEntries3 ++ trieEntries4

/-- One fold step of the maximal-prefix lookup: keep the longest trie key
that is a prefix of `s`. -/
def maximalPrefixStep (s : List Nat) :
    Option (FormatElementType × Nat) → List Nat × FormatElementType →
    Option (FormatElementType × Nat)
  | none, kt =>
    if kt.1 = s.take kt.1.length then some (kt.2, kt.1.length) else none
  | some tl, kt =>
    if kt.1 = s.take kt.1.length ∧ tl.2 < kt.1.length then
      some (kt.2, kt.1.length)
    else some tl

/-- `GeneralTrie::GetDataForMaximalPrefix` over the static trie: the value
and length of the longest trie key that is a prefix of `s`, or `none` when
no key matches. -/
def GetDataForMaximalPrefix (s : List Nat) : Option (FormatElementType × Nat) :=
  formatElementTypeTrieEntries.foldl (maximalPrefixStep s) none

/-- Tokenization errors of `GetNextDateTimeFormatElement` (the carried data
mirrors what the source interpolates into the message text). -/
inductive TokError
  | cannotFindMatchedFormatElement
  | unsupportedEscapeSequence (c : Nat)
  | cannotFindMatchingQuote
  | failedToParseFFN
  | retCheckFailure
  | outOfFuel
deriving DecidableEq

/-- The escape-state scan that `GetNextDateTimeFormatElement` runs after
matching the opening double quote of a `kDoubleQuotedLiteral` element.
Returns the unescaped literal bytes and the number of input bytes consumed
(including the closing quote). -/
def scanQuoted : List Nat → Bool → Except TokError (List Nat × Nat)
  | [], _ => .error .cannotFindMatchingQuote
  | c :: rest, true =>
    if c = 92 ∨ c = 34 then
      match scanQuoted rest false with
      | .ok (lit, n) => .ok (c :: lit, n + 1)
      | .error e => .error e
    else .error (.unsupportedEscapeSequence c)
  | c :: rest, false =>
    if c = 92 then
      match scanQuoted rest true with
      | .ok (lit, n) => .ok (lit, n + 1)
      | .error e => .error e
    else if c = 34 then .ok ([], 1)
    else
      match scanQuoted rest false with
      | .ok (lit, n) => .ok (c :: lit, n + 1)
      | .error e => .error e

/-- The number of leading ASCII space bytes of `s` (the manual extension scan
for a `kWhitespace` element). -/
def countSpaces (s : List Nat) : Nat :=
  (s.takeWhile (fun b => decide (b = 32))).length

/-- Modelled from the spec: `absl::SimpleAtoi` on the digit suffix of an
`FFn` element (an unsigned decimal digit string). -/
def simpleAtoi (s : List Nat) : Option Nat :=
  match s with
  | [] => none
  | _ :: _ =>
    if s.all isDigitByte then
      some (s.foldl (fun acc b => acc * 10 + (b - 48)) 0)
    else none

/-- The body of `GetFormatCasingTypeOfNonLiteralElements` for a non-empty
element string `s = b0 :: rest` (the checks on the first two original bytes
and the meridian/era/one-character/`Y,YYY` special case). -/
def casingNonEmpty (s : List Nat) (b0 : Nat) (rest : List Nat)
    (category : FormatElementCategory) : Except TokError FormatCasingType :=
  if asciiIsAlpha b0 then
    if asciiIsLower b0 then .ok .kAllLettersLowercase
    else if category = .kMeridianIndicator ∨ category = .kEraIndicator ∨
        rest = [] ∨ asciiStrToUpper s = [89, 44, 89, 89, 89] then
      .ok .kAllLettersUppercase
    else
      match rest with
      | [] => .error .retCheckFailure
      | b1 :: _ =>
        if asciiIsAlpha b1 then
          if asciiIsUpper b0 && asciiIsLower b1 then .ok .kOnlyFirstLetterUppercase
          else .ok .kAllLettersUppercase
        else .error .retCheckFailure
  else .error .retCheckFailure

/-- `GetFormatCasingTypeOfNonLiteralElements`: derive the output casing of a
non-literal element from its original (pre-uppercasing) bytes.  The
`retCheckFailure` results embed the `ZETASQL_RET_CHECK`s of the source. -/
def GetFormatCasingTypeOfNonLiteralElements (s : List Nat)
    (category : FormatElementCategory) : Except TokError FormatCasingType :=
  if category = .kLiteral then .error .retCheckFailure
  else
    match s with
    | [] => .error .retCheckFailure
    | b0 :: rest => casingNonEmpty s b0 rest category

/-- The non-literal branch of `GetNextDateTimeFormatElement`: infer the
casing from the original bytes of the match, and for `kFFN` parse the digit
suffix into `subsecond_digit_count`. -/
def getNextNonLiteral (format_str : List Nat) (ty : FormatElementType)
    (matched_len : Nat) : Except TokError DateTimeFormatElement :=
  match GetFormatCasingTypeOfNonLiteralElements (format_str.take matched_len)
      (GetFormatElementCategoryFromType ty) with
  | .error e => .error e
  | .ok casing =>
    if ty = .kFFN then
      match simpleAtoi ((format_str.drop 2).take (matched_len - 2)) with
      | none => .error .failedToParseFFN
      | some n =>
        .ok ⟨ty, GetFormatElementCategoryFromType ty, matched_len, [], n, casing⟩
    else .ok ⟨ty, GetFormatElementCategoryFromType ty, matched_len, [], 0, casing⟩

/-- The literal branch of `GetNextDateTimeFormatElement`: simple literals
record their matched byte, whitespace extends across the run of ASCII
spaces, and double-quoted literals run the escape scan; the final arm
embeds the `ZETASQL_RET_CHECK` that the type is `kDoubleQuotedLiteral`. -/
def getNextLiteral (format_str : List Nat) (ty : FormatElementType)
    (matched_len : Nat) : Except TokError DateTimeFormatElement :=
  if ty = .kSimpleLiteral then
    .ok ⟨ty, GetFormatElementCategoryFromType ty, matched_len,
      format_str.take matched_len, 0, .kPreserveCase⟩
  else if ty = .kWhitespace then
    .ok ⟨ty, GetFormatElementCategoryFromType ty,
      matched_len + countSpaces (format_str.drop matched_len), [], 0,
      .kPreserveCase⟩
  else if ty = .kDoubleQuotedLiteral then
    match scanQuoted (format_str.drop 1) false with
    | .error e => .error e
    | .ok (lit, n) =>
      .ok ⟨ty, GetFormatElementCategoryFromType ty, matched_len + n, lit, 0,
        .kPreserveCase⟩
  else .error .retCheckFailure

/-- Dispatch of `GetNextDateTimeFormatElement` on the trie lookup result. -/
def getNextWithTrieResult (format_str : List Nat) :
    Option (FormatElementType × Nat) → Except TokError DateTimeFormatElement
  | none => .error .cannotFindMatchedFormatElement
  | some (ty, matched_len) =>
    if GetFormatElementCategoryFromType ty ≠ .kLiteral then
      getNextNonLiteral format_str ty matched_len
    else getNextLiteral format_str ty matched_len

/-- `GetNextDateTimeFormatElement`: match the next format element at the
front of `format_str` (the source receives the pre-uppercased string as a
second argument; here it is recomputed, which agrees because ASCII
uppercasing is a byte map). -/
def GetNextDateTimeFormatElement (format_str : List Nat) :
    Except TokError DateTimeFormatElement :=
  getNextWithTrieResult format_str
    (GetDataForMaximalPrefix (asciiStrToUpper format_str))

/-- Fuel-driven worker for `GetDateTimeFormatElements`; `p` is the number of
bytes already processed (carried only into error positions).  The fuel never
runs out when it starts at the string length, because every matched element
consumes at least one byte. -/
def getElementsAux : Nat → List Nat → Nat →
    Except (TokError × Nat) (List DateTimeFormatElement)
  | _, [], _ => .ok []
  | 0, _ :: _, p => .error (.outOfFuel, p)
  | fuel + 1, s@(_ :: _), p =>
    match GetNextDateTimeFormatElement s with
    | .error e => .error (e, p)
    | .ok fe =>
      match getElementsAux fuel (s.drop fe.len_in_format_str)
          (p + fe.len_in_format_str) with
      | .error e => .error e
      | .ok fes => .ok (fe :: fes)

/-- `GetDateTimeFormatElements`: tokenize a whole format string into its
ordered element list. -/
def GetDateTimeFormatElements (format_str : List Nat) :
    Except (TokError × Nat) (List DateTimeFormatElement) :=
  getElementsAux format_str.length format_str 0

/-- Validation errors (the carried data mirrors what the source error
messages interpolate). -/
inductive ValErr
  | notSupportedForParsing (fe : DateTimeFormatElement)
  | appearsMoreThanOnce (fe : DateTimeFormatElement)
  | moreThanOneInCategory (c : FormatElementCategory)
      (fe1 fe2 : DateTimeFormatElement)
  | categoryNotAllowedForOutput (c : FormatElementCategory)
      (fe : DateTimeFormatElement)
  | typeAndCategoryMutuallyExclusive (t : FormatElementType)
      (c : FormatElementCategory)
  | typesMutuallyExclusive (t1 t2 : FormatElementType)
  | categoryRequiredWhenTypeExists (c : FormatElementCategory)
      (t : FormatElementType)
  | typeRequiredWhenCategoryExists (ts : List FormatElementType)
      (c : FormatElementCategory)
  | outputTypeDoesNotSupport (fe : DateTimeFormatElement)
deriving DecidableEq

/-- `IsSupportedForParsing`: whether a format element may appear in a format
string used for parsing. -/
def IsSupportedForParsing (fe : DateTimeFormatElement) : Bool :=
  match fe.type with
  | .kSimpleLiteral | .kDoubleQuotedLiteral | .kWhitespace
  | .kYYYY | .kYYY | .kYY | .kY | .kRRRR | .kRR | .kYCommaYYY
  | .kMM | .kMON | .kMONTH
  | .kDD | .kDDD
  | .kHH | .kHH12 | .kHH24
  | .kMI
  | .kSS | .kSSSSS | .kFFN
  | .kAM | .kPM | .kAMWithDots | .kPMWithDots
  | .kTZH | .kTZM => true
  | _ => false

/-- The per-category element map (values capped at two entries, as in the
source) and the type-to-first-element map built by the loop at the top of
`ValidateDateTimeFormatElements`, with the two error checks that loop
performs. -/
def buildValidationMaps :
    List DateTimeFormatElement →
    (FormatElementCategory → List DateTimeFormatElement) →
    (FormatElementType → Option DateTimeFormatElement) →
    Except ValErr ((FormatElementCategory → List DateTimeFormatElement) ×
      (FormatElementType → Option DateTimeFormatElement))
  | [], cm, tm => .ok (cm, tm)
  | fe :: rest, cm, tm =>
    if ¬ IsSupportedForParsing fe then .error (.notSupportedForParsing fe)
    else
      let cm' := if (cm fe.category).length < 2 then
        fun c => if c = fe.category then cm fe.category ++ [fe] else cm c
      else cm
      match tm fe.type with
      | some _ =>
        if fe.category ≠ .kLiteral then .error (.appearsMoreThanOnce fe)
        else buildValidationMaps rest cm' tm
      | none =>
        buildValidationMaps rest cm' (fun t => if t = fe.type then some fe else tm t)

/-- `CheckForDuplicateElementsInCategory`. -/
def CheckForDuplicateElementsInCategory (category : FormatElementCategory)
    (cm : FormatElementCategory → List DateTimeFormatElement) :
    Except ValErr Unit :=
  match cm category with
  | fe1 :: fe2 :: _ => .error (.moreThanOneInCategory category fe1 fe2)
  | _ => .ok ()

/-- `CheckCategoryNotExist` (the source also carries the output type name for
the message text). -/
def CheckCategoryNotExist (category : FormatElementCategory)
    (cm : FormatElementCategory → List DateTimeFormatElement) :
    Except ValErr Unit :=
  match cm category with
  | fe :: _ => .error (.categoryNotAllowedForOutput category fe)
  | [] => .ok ()

/-- `CheckForMutuallyExclusiveElements` (type/category overload). -/
def CheckForMutuallyExclusiveElementsTC (t : FormatElementType)
    (category : FormatElementCategory)
    (tm : FormatElementType → Option DateTimeFormatElement)
    (cm : FormatElementCategory → List DateTimeFormatElement) :
    Except ValErr Unit :=
  if (tm t).isSome ∧ cm category ≠ [] then
    .error (.typeAndCategoryMutuallyExclusive t category)
  else .ok ()

/-- `CheckForMutuallyExclusiveElements` (type/type overload). -/
def CheckForMutuallyExclusiveElementsTT (t1 t2 : FormatElementType)
    (tm : FormatElementType → Option DateTimeFormatElement) :
    Except ValErr Unit :=
  if (tm t1).isSome ∧ (tm t2).isSome then
    .error (.typesMutuallyExclusive t1 t2)
  else .ok ()

/-- `CheckForCoexistance`: an element of some type in `types` must be
present exactly when an element of `category` is present. -/
def CheckForCoexistance (types : List FormatElementType)
    (category : FormatElementCategory)
    (tm : FormatElementType → Option DateTimeFormatElement)
    (cm : FormatElementCategory → List DateTimeFormatElement) :
    Except ValErr Unit :=
  match types.find? (fun t => (tm t).isSome) with
  | some present_type =>
    if cm category = [] then
      .error (.categoryRequiredWhenTypeExists category present_type)
    else .ok ()
  | none =>
    if cm category ≠ [] then
      .error (.typeRequiredWhenCategoryExists types category)
    else .ok ()

/-- `ValidateDateTimeFormatElements`: the parse-mode structural validator
(the source also receives the output type name used in messages). -/
def ValidateDateTimeFormatElements (format_elements : List DateTimeFormatElement)
    (invalid_categories : List FormatElementCategory) : Except ValErr Unit := do
  let (cm, tm) ← buildValidationMaps format_elements (fun _ => []) (fun _ => none)
  CheckForDuplicateElementsInCategory .kMeridianIndicator cm
  CheckForDuplicateElementsInCategory .kYear cm
  CheckForDuplicateElementsInCategory .kMonth cm
  CheckForDuplicateElementsInCategory .kDay cm
  CheckForDuplicateElementsInCategory .kHour cm
  CheckForDuplicateElementsInCategory .kMinute cm
  CheckForMutuallyExclusiveElementsTC .kDDD .kMonth tm cm
  CheckForMutuallyExclusiveElementsTC .kHH24 .kMeridianIndicator tm cm
  CheckForCoexistance [.kHH, .kHH12] .kMeridianIndicator tm cm
  CheckForMutuallyExclusiveElementsTC .kSSSSS .kHour tm cm
  CheckForMutuallyExclusiveElementsTC .kSSSSS .kMinute tm cm
  CheckForMutuallyExclusiveElementsTT .kSSSSS .kSS tm
  for c in invalid_categories do
    CheckCategoryNotExist c cm

/-- `ValidateDateDateTimeFormatElementsForFormatting`: the format-mode check
for DATE, which only restricts element categories. -/
def ValidateDateDateTimeFormatElementsForFormatting :
    List DateTimeFormatElement → Except ValErr Unit
  | [] => .ok ()
  | fe :: rest =>
    match fe.category with
    | .kLiteral | .kYear | .kMonth | .kDay =>
      ValidateDateDateTimeFormatElementsForFormatting rest
    | _ => .error (.outputTypeDoesNotSupport fe)

/-- `ValidateTimeDateTimeFormatElementsForFormatting`: the format-mode check
for TIME, which only restricts element categories. -/
def ValidateTimeDateTimeFormatElementsForFormatting :
    List DateTimeFormatElement → Except ValErr Unit
  | [] => .ok ()
  | fe :: rest =>
    match fe.category with
    | .kLiteral | .kHour | .kMinute | .kSecond | .kMeridianIndicator =>
      ValidateTimeDateTimeFormatElementsForFormatting rest
    | _ => .error (.outputTypeDoesNotSupport fe)

/-- `ValidateDatetimeDateTimeFormatElementsForFormatting`: the format-mode
check for DATETIME, which only restricts element categories. -/
def ValidateDatetimeDateTimeFormatElementsForFormatting :
    List DateTimeFormatElement → Except ValErr Unit
  | [] => .ok ()
  | fe :: rest =>
    match fe.category with
    | .kLiteral | .kYear | .kMonth | .kDay | .kHour | .kMinute | .kSecond
    | .kMeridianIndicator =>
      ValidateDatetimeDateTimeFormatElementsForFormatting rest
    | _ => .error (.outputTypeDoesNotSupport fe)

/-- The element categories admitted by the DATE format-mode check. -/
def dateFormattingAllowedCategory : FormatElementCategory → Bool
  | .kLiteral | .kYear | .kMonth | .kDay => true
  | _ => false

/-- The element categories admitted by the TIME format-mode check. -/
def timeFormattingAllowedCategory : FormatElementCategory → Bool
  | .kLiteral | .kHour | .kMinute | .kSecond | .kMeridianIndicator => true
  | _ => false

/-- The element categories admitted by the DATETIME format-mode check. -/
def datetimeFormattingAllowedCategory : FormatElementCategory → Bool
  | .kLiteral | .kYear | .kMonth | .kDay | .kHour | .kMinute | .kSecond
  | .kMeridianIndicator => true
  | _ => false

/-- The `zetasql::TypeKind` values dispatched on by the validation entry
points (other kinds collapse to `TYPE_OTHER`). -/
inductive TypeKind
  | TYPE_DATE
  | TYPE_DATETIME
  | TYPE_TIME
  | TYPE_TIMESTAMP
  | TYPE_OTHER
deriving DecidableEq

/-- `ParseStringByExactMatch`: the number of bytes consumed when `input`
starts with `target` (`none` embeds `absl::string_view::npos`). -/
def ParseStringByExactMatch (input target : List Nat) : Option Nat :=
  if target = [] then some 0
  else if input.take target.length = target then some target.length
  else none

/-- Modelled from the spec: `parse_date_time_utils::ParseInt` together with
the wrapper in the source that bounds the parsed width.  Consumes up to
`max_width` leading decimal digit bytes; fails when there is no digit, when
the value falls outside `[vmin, vmax]`, or when fewer than `min_width`
digits were consumed.  Returns the consumed width and the value. -/
def ParseInt (s : List Nat) (min_width max_width : Nat) (vmin vmax : Int) :
    Option (Nat × Int) :=
  let ds := (s.take max_width).takeWhile isDigitByte
  match ds with
  | [] => none
  | _ :: _ =>
    let v : Int := ds.foldl (fun acc b => acc * 10 + (Int.ofNat b - 48)) 0
    if vmin ≤ v ∧ v ≤ vmax then
      if min_width ≤ ds.length then some (ds.length, v) else none
    else none

/-- `ParseWithFormatElementOfTypeRR`: two-digit year with the ±50-year pivot
against the current year (`Int.tdiv`/`Int.tmod` are the C truncated division
and remainder). -/
def ParseWithFormatElementOfTypeRR (timestamp_string : List Nat)
    (current_year : Int) : Option (Nat × Int) :=
  let current_year_last_two_digits := current_year.tmod 100
  let current_year_before_last_two_digits := current_year.tdiv 100
  match ParseInt timestamp_string 1 2 0 99 with
  | none => none
  | some (w, year_last_two_digits) =>
    let year_before_last_two_digits :=
      if year_last_two_digits < 50 ∧ 50 ≤ current_year_last_two_digits then
        current_year_before_last_two_digits + 1
      else if 50 ≤ year_last_two_digits ∧ current_year_last_two_digits < 50 then
        current_year_before_last_two_digits - 1
      else current_year_before_last_two_digits
    some (w, year_before_last_two_digits * 100 + year_last_two_digits)

/-- `ParseWithFormatElementOfTypeYCommaYYY`: a year written as `X,XXX` or
`XX,XXX`. -/
def ParseWithFormatElementOfTypeYCommaYYY (timestamp_string : List Nat) :
    Option (Nat × Int) :=
  match ParseInt timestamp_string 1 2 0 10 with
  | none => none
  | some (n1, year_first_part) =>
    match ParseStringByExactMatch (timestamp_string.drop n1) [44] with
    | none => none
    | some n2 =>
      match ParseInt (timestamp_string.drop (n1 + n2)) 3 3 0 999 with
      | none => none
      | some (n3, year_last_three_digits) =>
        some (n1 + n2 + n3, year_first_part * 1000 + year_last_three_digits)

/-- Evaluation errors of `ParseTimeWithFormatElements` (the carried data
mirrors what the source messages interpolate). -/
inductive ParseError
  | failedToParse (pos : Nat) (fe : DateTimeFormatElement)
  | illegalNonSpaceTrailingData (rest : List Nat)
  | entireStringParsedBeforeElement (fe : DateTimeFormatElement)
  | invalidYearMonthDayResult
  | outOfValidTimeRange
  | retCheckFailure
deriving DecidableEq

/-- One iteration of the element loop of `ParseTimeWithFormatElements` for
the element `fe` against the unparsed input suffix.  `.ok none` embeds a
parse failure (`npos`, or a `kWhitespace` element matching zero characters);
`.ok (some (n, year'))` means `n` input bytes were consumed and the running
year became `year'`; `.error` embeds the `ZETASQL_RET_CHECK` in the
`kYYY`/`kYY`/`kY` branch.  The `month`, `mday`, `hour`, `min` and `sec`
variables of the source are never assigned in any branch of the loop, so the
year is the only piece of civil state threaded through. -/
def parseOneElement (fe : DateTimeFormatElement) (input : List Nat)
    (year : Int) : Except Unit (Option (Nat × Int)) :=
  match fe.type with
  | .kSimpleLiteral | .kDoubleQuotedLiteral =>
    match ParseStringByExactMatch input fe.literal_value with
    | some n => .ok (some (n, year))
    | none => .ok none
  | .kWhitespace =>
    let n := TrimLeadingUnicodeWhiteSpaces input
    if n = 0 then .ok none else .ok (some (n, year))
  | .kYYYY | .kRRRR =>
    match ParseInt input 1 5 0 10000 with
    | some (n, v) => .ok (some (n, v))
    | none => .ok none
  | .kYYY | .kYY | .kY =>
    let element_length := fe.len_in_format_str
    if element_length < 10 then
      let p : Int := (10 : Int) ^ element_length
      match ParseInt input 1 element_length 0 (p - 1) with
      | some (n, parsed_year_part) =>
        .ok (some (n, year - year.tmod p + parsed_year_part))
      | none => .ok none
    else .error ()
  | .kRR =>
    match ParseWithFormatElementOfTypeRR input year with
    | some (n, y) => .ok (some (n, y))
    | none => .ok none
  | .kYCommaYYY =>
    match ParseWithFormatElementOfTypeYCommaYYY input with
    | some (n, y) => .ok (some (n, y))
    | none => .ok none
  | _ => .ok none

/-- The element loop of `ParseTimeWithFormatElements`: runs while unparsed
input and unprocessed elements both remain.  Returns the elements that were
not processed, the number of input bytes parsed, and the final year. -/
def parseLoop (timestamp_string : List Nat) :
    List DateTimeFormatElement → Nat → Int →
    Except ParseError (List DateTimeFormatElement × Nat × Int)
  | [], parsedLen, year => .ok ([], parsedLen, year)
  | fe :: rest, parsedLen, year =>
    if parsedLen < timestamp_string.length then
      match parseOneElement fe (timestamp_string.drop parsedLen) year with
      | .error _ => .error .retCheckFailure
      | .ok none => .error (.failedToParse parsedLen fe)
      | .ok (some (n, year')) => parseLoop timestamp_string rest (parsedLen + n) year'
    else .ok (fe :: rest, parsedLen, year)

/-- A civil second `(year, month, day, hour, minute, second)`. -/
structure CivilSecond where
  y : Int
  m : Int
  d : Int
  hh : Int
  mi : Int
  ss : Int
deriving DecidableEq

/-- A civil date triple. -/
structure CivilDay where
  y : Int
  m : Int
  d : Int
deriving DecidableEq

/-- Modelled from the spec: the civil-time library's serial day number of a
proleptic Gregorian date with the month already normalized to `1..12`
(days-from-civil, epoch 1970-01-01). -/
def daysFromCivil (y m d : Int) : Int :=
  let yAdj := if m ≤ 2 then y - 1 else y
  let era := yAdj.fdiv 400
  let yoe := yAdj - era * 400
  let mp := if 2 < m then m - 3 else m + 9
  let doy := (153 * mp + 2).fdiv 5 + d - 1
  let doe := yoe * 365 + yoe.fdiv 4 - yoe.fdiv 100 + doy
  era * 146097 + doe - 719468

/-- Modelled from the spec: the civil-time library's conversion of a serial
day number back to a proleptic Gregorian date (civil-from-days). -/
def civilFromDays (z0 : Int) : CivilDay :=
  let z := z0 + 719468
  let era := z.fdiv 146097
  let doe := z - era * 146097
  let yoe := (doe - doe.fdiv 1460 + doe.fdiv 36524 - doe.fdiv 146096).fdiv 365
  let y := yoe + era * 400
  let doy := doe - (365 * yoe + yoe.fdiv 4 - yoe.fdiv 100)
  let mp := (5 * doy + 2).fdiv 153
  let d := doy - (153 * mp + 2).fdiv 5 + 1
  let m := if mp < 10 then mp + 3 else mp - 9
  ⟨if m ≤ 2 then y + 1 else y, m, d⟩

/-- Modelled from the spec: the field normalization performed by the
`absl::CivilSecond` constructor — seconds, minutes and hours carry upward
with floor semantics, months carry into years, and the resulting day count
is renormalized through the serial day number. -/
def normalizeCivil (y m d hh mi ss : Int) : CivilSecond :=
  let mi0 := mi + ss.fdiv 60
  let ss' := ss.fmod 60
  let hh0 := hh + mi0.fdiv 60
  let mi' := mi0.fmod 60
  let d0 := d + hh0.fdiv 24
  let hh' := hh0.fmod 24
  let y0 := y + (m - 1).fdiv 12
  let m0 := (m - 1).fmod 12 + 1
  let cd := civilFromDays (daysFromCivil y0 m0 1 + (d0 - 1))
  ⟨cd.y, cd.m, cd.d, hh', mi', ss'⟩

/-- Modelled from the spec: `IsValidTime` — the supported absolute range of a
timestamp, `0001-01-01 00:00:00` to `9999-12-31 23:59:59.999999` UTC, here
over the model of `absl::Time` as unix microseconds. -/
def IsValidTime (t : Int) : Bool :=
  decide (-62135596800000000 ≤ t ∧ t ≤ 253402300799999999)

/-- Modelled from the spec: the civil-time conversions a time zone provides
to the parser — `At(absl::Time).cs` (wall-clock civil second of an instant)
and `At(CivilSecond).pre` (the pre-disambiguation instant of a wall time). -/
structure ZoneLib where
  atTimeCS : Int → CivilSecond
  atCivilPre : CivilSecond → Int

/-- Whether a format element is a `kDoubleQuotedLiteral` with empty literal
value (such trailing elements are skipped at the end of parsing). -/
def isEmptyQuotedLiteral (fe : DateTimeFormatElement) : Bool :=
  decide (fe.type = .kDoubleQuotedLiteral ∧ fe.literal_value = [])

/-- The tail of `ParseTimeWithFormatElements` after the element loop:
absorb trailing Unicode whitespace, skip trailing empty double-quoted
literal elements, report leftover input or leftover elements, validate the
civil result, convert through the zone and range-check. -/
def finishParse (zone : ZoneLib) (timestamp_string : List Nat)
    (remaining : List DateTimeFormatElement) (parsedLen : Nat)
    (year month mday hour min sec : Int) : Except ParseError Int :=
  let parsedLen' := parsedLen +
    TrimLeadingUnicodeWhiteSpaces (timestamp_string.drop parsedLen)
  let remaining' := remaining.dropWhile isEmptyQuotedLiteral
  if parsedLen' < timestamp_string.length then
    .error (.illegalNonSpaceTrailingData (timestamp_string.drop parsedLen'))
  else
    match remaining' with
    | fe :: _ => .error (.entireStringParsedBeforeElement fe)
    | [] =>
      let cs := normalizeCivil year month mday hour min sec
      if cs.y ≠ year ∨ cs.m ≠ month ∨ cs.d ≠ mday then
        .error .invalidYearMonthDayResult
      else
        let timestamp := zone.atCivilPre cs
        if ¬ IsValidTime timestamp then .error .outOfValidTimeRange
        else .ok timestamp

/-- `TimestampScale` (passed through by the entry points; the inner parse
routine does not consult it). -/
inductive TimestampScale
  | kMicroseconds
  | kNanoseconds
deriving DecidableEq

/-- `ParseTimeWithFormatElements`: parse `timestamp_string` under the
element list, defaulting the civil fields from the current timestamp in the
default zone (`year`/`month` from now, `mday = 1`, `hour = min = sec = 0`),
then finish as in `finishParse`. -/
def ParseTimeWithFormatElements (zone : ZoneLib)
    (format_elements : List DateTimeFormatElement)
    (timestamp_string : List Nat) (current_timestamp : Int)
    (_scale : TimestampScale) : Except ParseError Int :=
  let cs_now := zone.atTimeCS current_timestamp
  let year := cs_now.y
  let month := cs_now.m
  let startLen := TrimLeadingUnicodeWhiteSpaces timestamp_string
  match parseLoop timestamp_string format_elements startLen year with
  | .error e => .error e
  | .ok (remaining, parsedLen, year') =>
    finishParse zone timestamp_string remaining parsedLen year' month 1 0 0 0

/-- Errors surfaced by the public entry points, wrapping the per-phase error
kinds. -/
inductive CastError
  | inputStringNotValidUTF8
  | tokenizeError (e : TokError) (pos : Nat)
  | validationError (e : ValErr)
  | parseError (e : ParseError)
  | unsupportedOutputType
deriving DecidableEq

/-- The `CastStringToTimestamp` overload taking an `absl::TimeZone` and
producing an `absl::Time` (source line 1461).  Note the guard: the source
tests `IsWellFormedUTF8(format_string)` twice and never tests
`timestamp_string`. -/
def CastStringToTimestampTimeOverload (zone : ZoneLib)
    (format_string timestamp_string : List Nat) (current_timestamp : Int) :
    Except CastError Int :=
  if ¬ IsWellFormedUTF8 format_string ∨ ¬ IsWellFormedUTF8 format_string then
    .error .inputStringNotValidUTF8
  else
    match GetDateTimeFormatElements format_string with
    | .error (e, p) => .error (.tokenizeError e p)
    | .ok format_elements =>
      match ValidateDateTimeFormatElements format_elements [] with
      | .error e => .error (.validationError e)
      | .ok () =>
        match ParseTimeWithFormatElements zone format_elements timestamp_string
            current_timestamp .kNanoseconds with
        | .error e => .error (.parseError e)
        | .ok t => .ok t

/-- The `CastStringToTimestamp` overload taking an `absl::TimeZone` and
producing microseconds (source line 1426), whose guard tests both string
arguments.  (The final conversion to microseconds via
`ConvertTimeToTimestamp` is outside the claims; the instant is returned.) -/
def CastStringToTimestampMicrosOverload (zone : ZoneLib)
    (format_string timestamp_string : List Nat) (current_timestamp : Int) :
    Except CastError Int :=
  if ¬ IsWellFormedUTF8 timestamp_string ∨ ¬ IsWellFormedUTF8 format_string then
    .error .inputStringNotValidUTF8
  else
    match GetDateTimeFormatElements format_string with
    | .error (e, p) => .error (.tokenizeError e p)
    | .ok format_elements =>
      match ValidateDateTimeFormatElements format_elements [] with
      | .error e => .error (.validationError e)
      | .ok () =>
        match ParseTimeWithFormatElements zone format_elements timestamp_string
            current_timestamp .kMicroseconds with
        | .error e => .error (.parseError e)
        | .ok t => .ok t

/-- `ValidateFormatStringForParsing`: UTF-8 check, tokenization, then the
parse-mode structural validator (only TIMESTAMP is supported). -/
def ValidateFormatStringForParsing (format_string : List Nat)
    (out_type : TypeKind) : Except CastError Unit :=
  if ¬ IsWellFormedUTF8 format_string then .error .inputStringNotValidUTF8
  else
    match GetDateTimeFormatElements format_string with
    | .error (e, p) => .error (.tokenizeError e p)
    | .ok format_elements =>
      if out_type = .TYPE_TIMESTAMP then
        match ValidateDateTimeFormatElements format_elements [] with
        | .error e => .error (.validationError e)
        | .ok () => .ok ()
      else .error .unsupportedOutputType

/-- `ValidateFormatStringForFormatting`: UTF-8 check, tokenization, then the
per-output-type category check — and no check at all for TIMESTAMP. -/
def ValidateFormatStringForFormatting (format_string : List Nat)
    (out_type : TypeKind) : Except CastError Unit :=
  if ¬ IsWellFormedUTF8 format_string then .error .inputStringNotValidUTF8
  else
    match GetDateTimeFormatElements format_string with
    | .error (e, p) => .error (.tokenizeError e p)
    | .ok format_elements =>
      match out_type with
      | .TYPE_DATE =>
        match ValidateDateDateTimeFormatElementsForFormatting format_elements with
        | .error e => .error (.validationError e)
        | .ok () => .ok ()
      | .TYPE_DATETIME =>
        match ValidateDatetimeDateTimeFormatElementsForFormatting format_elements with
        | .error e => .error (.validationError e)
        | .ok () => .ok ()
      | .TYPE_TIME =>
        match ValidateTimeDateTimeFormatElementsForFormatting format_elements with
        | .error e => .error (.validationError e)
        | .ok () => .ok ()
      | .TYPE_TIMESTAMP => .ok ()
      | .TYPE_OTHER => .error .unsupportedOutputType

/-- Decimal digit bytes of a natural number (most significant first). -/
def natToDecBytes (n : Nat) : List Nat :=
  if n = 0 then [48] else (Nat.digits 10 n).reverse.map (fun d => d + 48)

/-- `absl::StrFormat` with a zero-padded minimum-width decimal conversion
(the `%0*d` and `%0Nd` forms used by the formatter). -/
def padInt (width : Nat) (v : Int) : List Nat :=
  if v < 0 then
    let ds := natToDecBytes v.natAbs
    45 :: (List.replicate (width - 1 - ds.length) 48 ++ ds)
  else
    let ds := natToDecBytes v.natAbs
    List.replicate (width - ds.length) 48 ++ ds

/-- Modelled from the spec: the fields of `absl::TimeZone::CivilInfo` the
formatter reads, together with the values of the external helpers
`DayOfWeekIntegerSunToSat1To7(GetWeekday(cs))` (`weekday`, Sunday = 1) and
`GetSignHourAndMinuteTimeZoneOffset` (offset sign and magnitudes). -/
structure CivilInfo where
  cs : CivilSecond
  weekday : Nat
  positiveOffset : Bool
  hourOffset : Int
  minuteOffset : Int

/-- Formatting errors. -/
inductive FmtError
  | unsupportedFormatElement (fe : DateTimeFormatElement)
deriving DecidableEq

/-- `FromDateTimeFormatElementToFormatString`: the per-element primitive
rendering (before casing).  Elements deferred to the external
strftime-like facility render as their conversion pattern bytes (`%m`,
`%b`, …), exactly as in the source. -/
def FromDateTimeFormatElementToFormatString (fe : DateTimeFormatElement)
    (info : CivilInfo) : Except FmtError (List Nat) :=
  match fe.type with
  | .kSimpleLiteral | .kDoubleQuotedLiteral => .ok fe.literal_value
  | .kWhitespace => .ok (List.replicate fe.len_in_format_str 32)
  | .kYYYY | .kYYY | .kYY | .kY | .kRRRR | .kRR =>
    let element_length := fe.len_in_format_str
    let trunc_year := info.cs.y.tmod ((10 : Int) ^ element_length)
    .ok (padInt element_length (if element_length = 4 then info.cs.y else trunc_year))
  | .kMM => .ok [37, 109]                       -- "%m"
  | .kMON => .ok [37, 98]                       -- "%b"
  | .kMONTH => .ok [37, 66]                     -- "%B"
  | .kD => .ok (natToDecBytes info.weekday)
  | .kDD => .ok [37, 100]                       -- "%d"
  | .kDDD => .ok [37, 106]                      -- "%j"
  | .kDAY => .ok [37, 65]                       -- "%A"
  | .kDY => .ok [37, 97]                        -- "%a"
  | .kHH | .kHH12 => .ok [37, 73]               -- "%I"
  | .kHH24 => .ok [37, 72]                      -- "%H"
  | .kMI => .ok [37, 77]                        -- "%M"
  | .kSS => .ok [37, 83]                        -- "%S"
  | .kSSSSS =>
    let second_of_day := info.cs.hh * 3600 + info.cs.mi * 60 + info.cs.ss
    .ok (padInt 5 second_of_day)
  | .kFFN => .ok ([37, 69] ++ natToDecBytes fe.subsecond_digit_count ++ [102])
  | .kAM | .kPM =>
    if 12 < info.cs.hh then .ok [80, 77]        -- "PM"
    else .ok [65, 77]                           -- "AM"
  | .kAMWithDots | .kPMWithDots =>
    if 12 < info.cs.hh then .ok [80, 46, 77, 46]   -- "P.M."
    else .ok [65, 46, 77, 46]                      -- "A.M."
  | .kTZH =>
    .ok ((if info.positiveOffset then 43 else 45) :: padInt 2 info.hourOffset)
  | .kTZM => .ok (padInt 2 info.minuteOffset)
  | _ => .error (.unsupportedFormatElement fe)

/-- A trivial concrete zone for evaluating parser runs: every instant maps
to the civil second 1970-06-01 00:00:00 and a civil second maps to the
injective encoding `y * 10000 + m * 100 + d` (ignoring time fields). -/
def trivialZone : ZoneLib :=
  ⟨fun _ => ⟨1970, 6, 1, 0, 0, 0⟩, fun cs => cs.y * 10000 + cs.m * 100 + cs.d⟩

/-- The byte string YYYY (a format string used in concrete runs). -/
def bytesYYYY : List Nat := [89, 89, 89, 89]

/-- The byte string HH12 (a format string used in concrete runs). -/
def bytesHH12 : List Nat := [72, 72, 49, 50]

/-- The `kHH12` element produced by tokenizing HH12. -/
def hh12Element : DateTimeFormatElement :=
  ⟨.kHH12, .kHour, 4, [], 0, .kAllLettersUppercase⟩

/-- The `kYYYY` element produced by tokenizing YYYY. -/
def yyyyElement : DateTimeFormatElement :=
  ⟨.kYYYY, .kYear, 4, [], 0, .kAllLettersUppercase⟩

/-- The `kYY` element produced by tokenizing YY. -/
def yyElement : DateTimeFormatElement :=
  ⟨.kYY, .kYear, 2, [], 0, .kAllLettersUppercase⟩

/-- The type and source length of a format element (the data preserved by
case-insensitive tokenization). -/
def elemShape (fe : DateTimeFormatElement) : FormatElementType × Nat :=
  (fe.type, fe.len_in_format_str)

/-! ### Helper lemmas -/

theorem countSpaces_le (s : List Nat) : countSpaces s ≤ s.length := by
  unfold countSpaces
  induction s with
  | nil => simp
  | cons b rest ih =>
    by_cases hb : b = 32
    · simpa [List.takeWhile, hb] using Nat.succ_le_succ ih
    · simp [List.takeWhile, hb]

theorem scanQuoted_len_le (s : List Nat) :
    ∀ (esc : Bool) (lit : List Nat) (n : Nat),
      scanQuoted s esc = .ok (lit, n) → n ≤ s.length := by
  induction s with
  | nil =>
    intro esc lit n h
    cases esc <;> simp [scanQuoted] at h
  | cons c rest ih =>
    intro esc lit n h
    cases esc with
    | true =>
      rw [scanQuoted] at h
      split at h
      · cases hrec : scanQuoted rest false with
        | ok p =>
          obtain ⟨lit', n'⟩ := p
          rw [hrec] at h
          simp only [Except.ok.injEq, Prod.mk.injEq] at h
          have := ih false lit' n' hrec
          simp only [List.length_cons]
          omega
        | error e => rw [hrec] at h; cases h
      · cases h
    | false =>
      rw [scanQuoted] at h
      split at h
      · cases hrec : scanQuoted rest true with
        | ok p =>
          obtain ⟨lit', n'⟩ := p
          rw [hrec] at h
          simp only [Except.ok.injEq, Prod.mk.injEq] at h
          have := ih true lit' n' hrec
          simp only [List.length_cons]
          omega
        | error e => rw [hrec] at h; cases h
      · split at h
        · simp only [Except.ok.injEq, Prod.mk.injEq] at h
          simp only [List.length_cons]
          omega
        · cases hrec : scanQuoted rest false with
          | ok p =>
            obtain ⟨lit', n'⟩ := p
            rw [hrec] at h
            simp only [Except.ok.injEq, Prod.mk.injEq] at h
            have := ih false lit' n' hrec
            simp only [List.length_cons]
            omega
          | error e => rw [hrec] at h; cases h

theorem trie_foldl_spec (s : List Nat) :
    ∀ (l : List (List Nat × FormatElementType))
      (acc : Option (FormatElementType × Nat)),
      (∀ p ∈ l, p ∈ formatElementTypeTrieEntries) →
      (∀ t n, acc = some (t, n) →
        (s.take n, t) ∈ formatElementTypeTrieEntries ∧ n = (s.take n).length) →
      ∀ t n, l.foldl (maximalPrefixStep s) acc = some (t, n) →
        (s.take n, t) ∈ formatElementTypeTrieEntries ∧ n = (s.take n).length := by
  intro l
  induction l with
  | nil => intro acc _ hacc t n h; exact hacc t n h
  | cons kt rest ih =>
    intro acc hsub hacc t n h
    refine ih _ (fun p hp => hsub p (List.mem_cons_of_mem _ hp)) ?_ t n h
    intro t' n' hstep
    cases hacc0 : acc with
    | none =>
      rw [hacc0] at hstep
      simp only [maximalPrefixStep] at hstep
      split at hstep
      · rename_i hpre
        simp only [Option.some.injEq, Prod.mk.injEq] at hstep
        obtain ⟨rfl, rfl⟩ := hstep
        exact ⟨hpre ▸ hsub kt (List.mem_cons_self _ _), hpre ▸ rfl⟩
      · cases hstep
    | some tl =>
      rw [hacc0] at hstep
      simp only [maximalPrefixStep] at hstep
      split at hstep
      · rename_i hcond
        simp only [Option.some.injEq, Prod.mk.injEq] at hstep
        obtain ⟨rfl, rfl⟩ := hstep
        exact ⟨hcond.1 ▸ hsub kt (List.mem_cons_self _ _), hcond.1 ▸ rfl⟩
      · exact hacc t' n' (hacc0.trans hstep)

theorem GetDataForMaximalPrefix_spec (s : List Nat) (t : FormatElementType)
    (n : Nat) (h : GetDataForMaximalPrefix s = some (t, n)) :
    (s.take n, t) ∈ formatElementTypeTrieEntries ∧ n = (s.take n).length := by
  exact trie_foldl_spec s formatElementTypeTrieEntries none (fun p hp => hp)
    (fun t' n' h' => by cases h') t n h

theorem GetDataForMaximalPrefix_le (s : List Nat) (t : FormatElementType)
    (n : Nat) (h : GetDataForMaximalPrefix s = some (t, n)) : n ≤ s.length := by
  have := (GetDataForMaximalPrefix_spec s t n h).2
  rw [List.length_take] at this
  omega

theorem doubleQuoted_key_tbl :
    ∀ p ∈ formatElementTypeTrieEntries,
      p.2 = FormatElementType.kDoubleQuotedLiteral → p.1 = [34] := by
  decide

attribute [irreducible] GetDataForMaximalPrefix

theorem length_asciiStrToUpper (s : List Nat) :
    (asciiStrToUpper s).length = s.length := by
  simp [asciiStrToUpper]

theorem getNextNonLiteral_len (fs : List Nat) (ty : FormatElementType)
    (matched_len : Nat) (fe : DateTimeFormatElement)
    (h : getNextNonLiteral fs ty matched_len = .ok fe) :
    fe.len_in_format_str = matched_len := by
  unfold getNextNonLiteral at h
  split at h
  · cases h
  · split at h
    · split at h
      · cases h
      · injection h with h2
        rw [← h2]
    · injection h with h2
      rw [← h2]

theorem getNextLiteral_len_le (fs : List Nat) (ty : FormatElementType)
    (matched_len : Nat) (fe : DateTimeFormatElement)
    (hml : matched_len ≤ fs.length)
    (hq : ty = .kDoubleQuotedLiteral → matched_len = 1 ∧ 1 ≤ fs.length)
    (h : getNextLiteral fs ty matched_len = .ok fe) :
    fe.len_in_format_str ≤ fs.length := by
  unfold getNextLiteral at h
  split at h
  · injection h with h2
    rw [← h2]
    exact hml
  · split at h
    · injection h with h2
      rw [← h2]
      have hcs := countSpaces_le (fs.drop matched_len)
      rw [List.length_drop] at hcs
      show matched_len + countSpaces (fs.drop matched_len) ≤ fs.length
      omega
    · split at h
      · rename_i hns hnw hty
        split at h
        · cases h
        · rename_i lit m heq
          injection h with h2
          rw [← h2]
          have hm := scanQuoted_len_le _ _ _ _ heq
          rw [List.length_drop] at hm
          obtain ⟨hml1, hpos⟩ := hq hty
          show matched_len + m ≤ fs.length
          omega
      · cases h

theorem getNext_len_le (fs : List Nat) (fe : DateTimeFormatElement)
    (h : GetNextDateTimeFormatElement fs = .ok fe) :
    fe.len_in_format_str ≤ fs.length := by
  unfold GetNextDateTimeFormatElement at h
  cases htrie : GetDataForMaximalPrefix (asciiStrToUpper fs) with
  | none =>
    rw [htrie] at h
    simp only [getNextWithTrieResult] at h
    cases h
  | some tl =>
    obtain ⟨ty, matched_len⟩ := tl
    rw [htrie] at h
    simp only [getNextWithTrieResult] at h
    have hml : matched_len ≤ fs.length := by
      have := GetDataForMaximalPrefix_le _ _ _ htrie
      rwa [length_asciiStrToUpper] at this
    split at h
    · rw [getNextNonLiteral_len fs ty matched_len fe h]
      exact hml
    · refine getNextLiteral_len_le fs ty matched_len fe hml ?_ h
      intro hty
      obtain ⟨hmem, hlen⟩ := GetDataForMaximalPrefix_spec _ _ _ htrie
      have hkey : (asciiStrToUpper fs).take matched_len = [34] :=
        doubleQuoted_key_tbl _ hmem hty
      rw [hkey] at hlen
      refine ⟨by simpa using hlen, ?_⟩
      rcases fs with - | ⟨a, l⟩
      · simp [asciiStrToUpper] at hkey
      · simp

theorem getElementsAux_sum :
    ∀ (fuel : Nat) (s : List Nat) (p : Nat) (fes : List DateTimeFormatElement),
      getElementsAux fuel s p = .ok fes →
      (fes.map (fun fe => fe.len_in_format_str)).sum = s.length := by
  intro fuel
  induction fuel with
  | zero =>
    intro s p fes h
    cases s with
    | nil =>
      simp only [getElementsAux, Except.ok.injEq] at h
      subst h
      simp
    | cons b rest => simp [getElementsAux] at h
  | succ fuel ih =>
    intro s p fes h
    cases s with
    | nil =>
      simp only [getElementsAux, Except.ok.injEq] at h
      subst h
      simp
    | cons b rest =>
      cases hnext : GetNextDateTimeFormatElement (b :: rest) with
      | error e =>
        simp only [getElementsAux, hnext] at h
        cases h
      | ok fe =>
        simp only [getElementsAux, hnext] at h
        cases hrec : getElementsAux fuel ((b :: rest).drop fe.len_in_format_str)
            (p + fe.len_in_format_str) with
        | error e => rw [hrec] at h; cases h
        | ok fes' =>
          rw [hrec] at h
          simp only [Except.ok.injEq] at h
          subst h
          have hsum := ih _ _ _ hrec
          have hle := getNext_len_le _ _ hnext
          rw [List.length_drop] at hsum
          simp only [List.map_cons, List.sum_cons, hsum]
          omega

/-! ### Claim theorems -/

/-- C3.  For every format string on which tokenization succeeds, the sum of
`len_in_format_str` over the returned elements equals the byte length of the
format string. -/
theorem tokenization_total_coverage (format_str : List Nat)
    (fes : List DateTimeFormatElement)
    (h : GetDateTimeFormatElements format_str = .ok fes) :
    (fes.map (fun fe => fe.len_in_format_str)).sum = format_str.length :=
  getElementsAux_sum format_str.length format_str 0 fes h

/-- Witness for C3 at the concrete format string `YYYY-MM-DD`. -/
theorem tokenization_total_coverage_witness :
    ∃ fes, GetDateTimeFormatElements [89, 89, 89, 89, 45, 77, 77, 45, 68, 68]
        = .ok fes ∧
      (fes.map (fun fe => fe.len_in_format_str)).sum =
        (10 : Nat) := by
  cases htok : GetDateTimeFormatElements [89, 89, 89, 89, 45, 77, 77, 45, 68, 68] with
  | error e =>
    have : (GetDateTimeFormatElements
        [89, 89, 89, 89, 45, 77, 77, 45, 68, 68]).isOk = true := by decide!
    rw [htok] at this
    cases this
  | ok fes =>
    exact ⟨fes, rfl, tokenization_total_coverage _ fes htok⟩

/-- C4.  The tokenizer takes the maximal trie match: `YYYY`, `YYY`, `YY`,
`Y`, `RRRR` and `RR` each tokenize to a single element of the same-named
type, and `A.M.` to the single dotted meridian element. -/
theorem tokenizer_maximal_munch :
    (GetDateTimeFormatElements [89, 89, 89, 89]).toOption.map
        (List.map (fun fe => fe.type)) = some [.kYYYY] ∧
    (GetDateTimeFormatElements [89, 89, 89]).toOption.map
        (List.map (fun fe => fe.type)) = some [.kYYY] ∧
    (GetDateTimeFormatElements [89, 89]).toOption.map
        (List.map (fun fe => fe.type)) = some [.kYY] ∧
    (GetDateTimeFormatElements [89]).toOption.map
        (List.map (fun fe => fe.type)) = some [.kY] ∧
    (GetDateTimeFormatElements [82, 82, 82, 82]).toOption.map
        (List.map (fun fe => fe.type)) = some [.kRRRR] ∧
    (GetDateTimeFormatElements [82, 82]).toOption.map
        (List.map (fun fe => fe.type)) = some [.kRR] ∧
    (GetDateTimeFormatElements [65, 46, 77, 46]).toOption.map
        (List.map (fun fe => fe.type)) = some [.kAMWithDots] := by
  refine ⟨?_, ?_, ?_, ?_, ?_, ?_, ?_⟩ <;> decide!

/-- C6.  Parsing with an `RR` element applies the ±50-year pivot: whenever
the two-digit scan succeeds with value `yy`, the century of the current
year is incremented when `yy < 50` and the current year's last two digits
are `≥ 50`, decremented in the opposite situation, and kept otherwise. -/
theorem rr_pivot_rule (ts : List Nat) (current_year : Int) (w : Nat) (yy : Int)
    (h : ParseInt ts 1 2 0 99 = some (w, yy)) :
    ParseWithFormatElementOfTypeRR ts current_year = some (w,
      (if yy < 50 ∧ 50 ≤ current_year.tmod 100 then current_year.tdiv 100 + 1
       else if 50 ≤ yy ∧ current_year.tmod 100 < 50 then current_year.tdiv 100 - 1
       else current_year.tdiv 100) * 100 + yy) := by
  unfold ParseWithFormatElementOfTypeRR
  rw [h]

/-- Witness for C6: the four pivot examples — current year 2002 maps "12" to
2012 and "51" to 1951; current year 2299 maps "12" to 2312 and "51" to
2251. -/
theorem rr_pivot_rule_witness :
    ParseWithFormatElementOfTypeRR [49, 50] 2002 = some (2, 2012) ∧
    ParseWithFormatElementOfTypeRR [53, 49] 2002 = some (2, 1951) ∧
    ParseWithFormatElementOfTypeRR [49, 50] 2299 = some (2, 2312) ∧
    ParseWithFormatElementOfTypeRR [53, 49] 2299 = some (2, 2251) :=
  ⟨(rr_pivot_rule [49, 50] 2002 2 12 (by decide)).trans (by decide),
   (rr_pivot_rule [53, 49] 2002 2 51 (by decide)).trans (by decide),
   (rr_pivot_rule [49, 50] 2299 2 12 (by decide)).trans (by decide),
   (rr_pivot_rule [53, 49] 2299 2 51 (by decide)).trans (by decide)⟩

theorem ParseInt_spec (s : List Nat) (min_width max_width : Nat)
    (vmin vmax : Int) (w : Nat) (v : Int)
    (h : ParseInt s min_width max_width vmin vmax = some (w, v)) :
    min_width ≤ w ∧ w ≤ max_width ∧ vmin ≤ v ∧ v ≤ vmax := by
  simp only [ParseInt] at h
  split at h
  · cases h
  · rename_i b bs hds
    split at h
    · rename_i hrange
      split at h
      · rename_i hmin
        simp only [Option.some.injEq, Prod.mk.injEq] at h
        obtain ⟨rfl, rfl⟩ := h
        refine ⟨hmin, ?_, hrange.1, hrange.2⟩
        have h1 : (((s.take max_width).takeWhile isDigitByte)).length ≤
            (s.take max_width).length := by
          have : ∀ (l : List Nat), (l.takeWhile isDigitByte).length ≤ l.length := by
            intro l
            induction l with
            | nil => simp
            | cons x xs ih =>
              by_cases hx : isDigitByte x
              · simpa [List.takeWhile, hx] using Nat.succ_le_succ ih
              · simp [List.takeWhile, hx]
          exact this _
        have h2 : (s.take max_width).length ≤ max_width := by
          rw [List.length_take]
          omega
        omega
      · cases h
    · cases h

/-- C7.  Parsing with a `kYYY`, `kYY` or `kY` element of length `L` reads an
integer of width `1..L` in range `0..10^L − 1` and replaces only the last
`L` decimal digits of the running year. -/
theorem year_truncating_parse (fe : DateTimeFormatElement) (input : List Nat)
    (year : Int) (w : Nat) (year' : Int)
    (hty : fe.type = .kYYY ∨ fe.type = .kYY ∨ fe.type = .kY)
    (h : parseOneElement fe input year = .ok (some (w, year'))) :
    ∃ parsed : Int,
      ParseInt input 1 fe.len_in_format_str 0
          ((10 : Int) ^ fe.len_in_format_str - 1) = some (w, parsed) ∧
      year' = year - year.tmod ((10 : Int) ^ fe.len_in_format_str) + parsed ∧
      1 ≤ w ∧ w ≤ fe.len_in_format_str ∧
      0 ≤ parsed ∧ parsed ≤ (10 : Int) ^ fe.len_in_format_str - 1 := by
  have hred : parseOneElement fe input year =
      (if fe.len_in_format_str < 10 then
        match ParseInt input 1 fe.len_in_format_str 0
            ((10 : Int) ^ fe.len_in_format_str - 1) with
        | some (n, parsed_year_part) =>
          .ok (some (n, year - year.tmod ((10 : Int) ^ fe.len_in_format_str) +
            parsed_year_part))
        | none => .ok none
      else .error ()) := by
    rcases hty with hty | hty | hty <;>
      · unfold parseOneElement
        rw [hty]
  rw [hred] at h
  split at h
  · split at h
    · rename_i n parsed heq
      simp only [Except.ok.injEq, Option.some.injEq, Prod.mk.injEq] at h
      obtain ⟨rfl, rfl⟩ := h
      have hspec := ParseInt_spec _ _ _ _ _ _ _ heq
      exact ⟨parsed, heq, rfl, hspec.1, hspec.2.1, hspec.2.2.1, hspec.2.2.2⟩
    · simp at h
  · cases h

/-- Witness for C7: with running year 1970 and a `YY` element, parsing the
input "12" gives year 1912 (only the last two digits are replaced). -/
theorem year_truncating_parse_witness :
    ∃ parsed : Int,
      ParseInt [49, 50] 1 2 0 ((10 : Int) ^ 2 - 1) = some (2, parsed) ∧
      (1912 : Int) = 1970 - Int.tmod 1970 ((10 : Int) ^ 2) + parsed ∧
      1 ≤ 2 ∧ 2 ≤ 2 ∧ 0 ≤ parsed ∧ parsed ≤ (10 : Int) ^ 2 - 1 :=
  year_truncating_parse yyElement [49, 50] 1970 2 1912
    (Or.inr (Or.inl rfl)) (by decide)

/-- C9.  The primitive meridian rendering is "PM" (dotted: "P.M.") exactly
when the wall-clock hour is strictly greater than 12, and "AM" ("A.M.")
otherwise; in particular at hour exactly 12 the rendering is "AM". -/
theorem meridian_rendering_boundary (fe : DateTimeFormatElement)
    (info : CivilInfo) :
    ((fe.type = .kAM ∨ fe.type = .kPM) →
      FromDateTimeFormatElementToFormatString fe info =
        .ok (if 12 < info.cs.hh then [80, 77] else [65, 77])) ∧
    ((fe.type = .kAMWithDots ∨ fe.type = .kPMWithDots) →
      FromDateTimeFormatElementToFormatString fe info =
        .ok (if 12 < info.cs.hh then [80, 46, 77, 46] else [65, 46, 77, 46])) ∧
    (info.cs.hh = 12 → fe.type = .kAM ∨ fe.type = .kPM →
      FromDateTimeFormatElementToFormatString fe info = .ok [65, 77]) := by
  refine ⟨?_, ?_, ?_⟩
  · intro hty
    rcases hty with h | h <;>
      · unfold FromDateTimeFormatElementToFormatString
        rw [h]
        show (if 12 < info.cs.hh then (Except.ok [80, 77] : Except FmtError (List Nat))
          else .ok [65, 77]) = _
        split <;> rfl
  · intro hty
    rcases hty with h | h <;>
      · unfold FromDateTimeFormatElementToFormatString
        rw [h]
        show (if 12 < info.cs.hh then
            (Except.ok [80, 46, 77, 46] : Except FmtError (List Nat))
          else .ok [65, 46, 77, 46]) = _
        split <;> rfl
  · intro h12 hty
    rcases hty with h | h <;>
      · unfold FromDateTimeFormatElementToFormatString
        rw [h]
        show (if 12 < info.cs.hh then (Except.ok [80, 77] : Except FmtError (List Nat))
          else .ok [65, 77]) = _
        have hlt : ¬ (12 : Int) < info.cs.hh := by omega
        rw [if_neg hlt]

/-- Witness for C9: a `PM` element at wall-clock hour 12 renders as "AM",
and at hour 13 as "PM". -/
theorem meridian_rendering_boundary_witness :
    FromDateTimeFormatElementToFormatString
        ⟨.kPM, .kMeridianIndicator, 2, [], 0, .kAllLettersUppercase⟩
        ⟨⟨1970, 1, 1, 12, 0, 0⟩, 5, true, 0, 0⟩ = .ok [65, 77] ∧
    FromDateTimeFormatElementToFormatString
        ⟨.kPM, .kMeridianIndicator, 2, [], 0, .kAllLettersUppercase⟩
        ⟨⟨1970, 1, 1, 13, 0, 0⟩, 5, true, 0, 0⟩ = .ok [80, 77] :=
  ⟨(meridian_rendering_boundary _ _).2.2 rfl (Or.inr rfl),
   ((meridian_rendering_boundary _ _).1 (Or.inr rfl)).trans (by decide)⟩

/-- C1 (code bug).  The guard of the `absl::Time`-producing
`CastStringToTimestamp` overload tests `format_string` twice and never
`timestamp_string`: the timestamp string consisting of the single byte 255
is not well-formed UTF-8, yet that overload runs the parser on it and
reports a trailing-data evaluation error instead of the UTF-8 validation
error — while the microseconds overload, whose guard is written correctly,
rejects the same arguments with the UTF-8 error. -/
theorem nonUtf8_timestamp_passes_time_overload_guard :
    IsWellFormedUTF8 [255] = false ∧
    CastStringToTimestampTimeOverload trivialZone [] [255] 0 =
      .error (.parseError (.illegalNonSpaceTrailingData [255])) ∧
    CastStringToTimestampMicrosOverload trivialZone [] [255] 0 =
      .error .inputStringNotValidUTF8 :=
  ⟨by decide, by decide, by decide⟩

/-- C2 (counterexample).  The format string `HH12` tokenizes to the single
`kHH12` element with no meridian element, and format-mode validation
accepts it for TIME (and for TIMESTAMP), while parse-mode validation
rejects it with the missing-meridian coexistence error — so the structural
rules 2–5 are not enforced in format mode. -/
theorem format_mode_accepts_hh12_without_meridian :
    GetDateTimeFormatElements bytesHH12 = .ok [hh12Element] ∧
    ValidateFormatStringForFormatting bytesHH12 .TYPE_TIME = .ok () ∧
    ValidateFormatStringForFormatting bytesHH12 .TYPE_TIMESTAMP = .ok () ∧
    ValidateFormatStringForParsing bytesHH12 .TYPE_TIMESTAMP =
      .error (.validationError (.categoryRequiredWhenTypeExists
        .kMeridianIndicator .kHH12)) := by
  refine ⟨?_, ?_, ?_, ?_⟩ <;> decide!

theorem time_formatting_validator_only_categories
    (fes : List DateTimeFormatElement) :
    ValidateTimeDateTimeFormatElementsForFormatting fes = .ok () ↔
      fes.all (fun fe => timeFormattingAllowedCategory fe.category) = true := by
  induction fes with
  | nil => simp [ValidateTimeDateTimeFormatElementsForFormatting]
  | cons fe rest ih =>
    cases hc : fe.category <;>
      simp [ValidateTimeDateTimeFormatElementsForFormatting, hc,
        timeFormattingAllowedCategory, List.all_cons, ih]

theorem date_formatting_validator_only_categories
    (fes : List DateTimeFormatElement) :
    ValidateDateDateTimeFormatElementsForFormatting fes = .ok () ↔
      fes.all (fun fe => dateFormattingAllowedCategory fe.category) = true := by
  induction fes with
  | nil => simp [ValidateDateDateTimeFormatElementsForFormatting]
  | cons fe rest ih =>
    cases hc : fe.category <;>
      simp [ValidateDateDateTimeFormatElementsForFormatting, hc,
        dateFormattingAllowedCategory, List.all_cons, ih]

theorem datetime_formatting_validator_only_categories
    (fes : List DateTimeFormatElement) :
    ValidateDatetimeDateTimeFormatElementsForFormatting fes = .ok () ↔
      fes.all (fun fe => datetimeFormattingAllowedCategory fe.category) = true := by
  induction fes with
  | nil => simp [ValidateDatetimeDateTimeFormatElementsForFormatting]
  | cons fe rest ih =>
    cases hc : fe.category <;>
      simp [ValidateDatetimeDateTimeFormatElementsForFormatting, hc,
        datetimeFormattingAllowedCategory, List.all_cons, ih]

/-- C2 (amended).  The format-mode validators enforce only the
per-output-type category restriction — an element list passes the
TIME/DATE/DATETIME format check exactly when every element's category is in
the allowed set, with no duplicate, mutual-exclusion or coexistence rules —
while parse-mode validation does enforce rule 5, rejecting a lone `HH12`
element with the missing-meridian coexistence error. -/
theorem format_mode_checks_only_categories :
    (∀ fes : List DateTimeFormatElement,
      ValidateTimeDateTimeFormatElementsForFormatting fes = .ok () ↔
        fes.all (fun fe => timeFormattingAllowedCategory fe.category) = true) ∧
    (∀ fes : List DateTimeFormatElement,
      ValidateDateDateTimeFormatElementsForFormatting fes = .ok () ↔
        fes.all (fun fe => dateFormattingAllowedCategory fe.category) = true) ∧
    (∀ fes : List DateTimeFormatElement,
      ValidateDatetimeDateTimeFormatElementsForFormatting fes = .ok () ↔
        fes.all (fun fe => datetimeFormattingAllowedCategory fe.category) = true) ∧
    ValidateDateTimeFormatElements [hh12Element] [] =
      .error (.categoryRequiredWhenTypeExists .kMeridianIndicator .kHH12) :=
  ⟨time_formatting_validator_only_categories,
   date_formatting_validator_only_categories,
   datetime_formatting_validator_only_categories,
   by decide⟩

/-- C8.  At the end of parsing, after absorbing trailing Unicode whitespace
and skipping trailing empty double-quoted-literal elements: leftover input
fails with the illegal-trailing-data error carrying the unparsed suffix;
leftover (non-empty) elements fail with the
entire-string-parsed error naming the first remaining element; and a
successful finish implies neither leftover input nor leftover elements. -/
theorem parse_termination_behavior (zone : ZoneLib)
    (timestamp_string : List Nat) (remaining : List DateTimeFormatElement)
    (parsedLen : Nat) (year month mday hour min sec : Int) :
    (parsedLen + TrimLeadingUnicodeWhiteSpaces (timestamp_string.drop parsedLen) <
        timestamp_string.length →
      finishParse zone timestamp_string remaining parsedLen year month mday
          hour min sec =
        .error (.illegalNonSpaceTrailingData (timestamp_string.drop
          (parsedLen +
            TrimLeadingUnicodeWhiteSpaces (timestamp_string.drop parsedLen))))) ∧
    (∀ fe tail, ¬ parsedLen +
        TrimLeadingUnicodeWhiteSpaces (timestamp_string.drop parsedLen) <
          timestamp_string.length →
      remaining.dropWhile isEmptyQuotedLiteral = fe :: tail →
      finishParse zone timestamp_string remaining parsedLen year month mday
          hour min sec =
        .error (.entireStringParsedBeforeElement fe)) ∧
    (∀ t, finishParse zone timestamp_string remaining parsedLen year month mday
          hour min sec = .ok t →
      ¬ parsedLen + TrimLeadingUnicodeWhiteSpaces (timestamp_string.drop parsedLen) <
          timestamp_string.length ∧
        remaining.dropWhile isEmptyQuotedLiteral = []) := by
  refine ⟨?_, ?_, ?_⟩
  · intro hlt
    simp only [finishParse]
    rw [if_pos hlt]
  · intro fe tail hnlt hdrop
    simp only [finishParse]
    rw [if_neg hnlt, hdrop]
  · intro t h
    simp only [finishParse] at h
    split at h
    · cases h
    · rename_i hnlt
      split at h
      · cases h
      · rename_i hnil
        exact ⟨hnlt, hnil⟩

/-- Witness for C8: one unparsed non-space byte after an empty element list
triggers the illegal-trailing-data error carrying that byte. -/
theorem parse_termination_behavior_witness :
    finishParse trivialZone [97] [] 0 1970 6 1 0 0 0 =
      .error (.illegalNonSpaceTrailingData [97]) :=
  (parse_termination_behavior trivialZone [97] [] 0 1970 6 1 0 0 0).1 (by decide)

theorem normalizeCivil_zero_time (y m d : Int) :
    (normalizeCivil y m d 0 0 0).hh = 0 ∧ (normalizeCivil y m d 0 0 0).mi = 0 ∧
      (normalizeCivil y m d 0 0 0).ss = 0 :=
  ⟨rfl, rfl, rfl⟩

/-- C10.  A successful parse can alter only the year among the civil
fields: the returned instant is the zone's pre-disambiguation conversion of
the civil second `(y, month-of-now, 1, 0, 0, 0)` for some year `y` — the
day is always 1 and the time fields are always 0. -/
theorem parse_only_year_affected (zone : ZoneLib)
    (fes : List DateTimeFormatElement) (ts : List Nat) (now : Int)
    (scale : TimestampScale) (t : Int)
    (h : ParseTimeWithFormatElements zone fes ts now scale = .ok t) :
    ∃ y : Int, t = zone.atCivilPre ⟨y, (zone.atTimeCS now).m, 1, 0, 0, 0⟩ := by
  simp only [ParseTimeWithFormatElements] at h
  split at h
  · cases h
  · rename_i remaining parsedLen year' heq
    simp only [finishParse] at h
    split at h
    · cases h
    · split at h
      · cases h
      · split at h
        · cases h
        · rename_i hcheck
          split at h
          · cases h
          · injection h with ht
            refine ⟨year', ?_⟩
            rw [← ht]
            push_neg at hcheck
            obtain ⟨h1, h2, h3⟩ := hcheck
            obtain ⟨h4, h5, h6⟩ := normalizeCivil_zero_time year'
              ((zone.atTimeCS now).m) 1
            congr 1
            calc normalizeCivil year' ((zone.atTimeCS now).m) 1 0 0 0
                = ⟨(normalizeCivil year' ((zone.atTimeCS now).m) 1 0 0 0).y,
                   (normalizeCivil year' ((zone.atTimeCS now).m) 1 0 0 0).m,
                   (normalizeCivil year' ((zone.atTimeCS now).m) 1 0 0 0).d,
                   (normalizeCivil year' ((zone.atTimeCS now).m) 1 0 0 0).hh,
                   (normalizeCivil year' ((zone.atTimeCS now).m) 1 0 0 0).mi,
                   (normalizeCivil year' ((zone.atTimeCS now).m) 1 0 0 0).ss⟩ := rfl
              _ = ⟨year', (zone.atTimeCS now).m, 1, 0, 0, 0⟩ := by
                  rw [h1, h2, h3, h4, h5, h6]

/-- Witness for C10: parsing "2020" with a single `YYYY` element under the
trivial zone yields the encoding of the civil second
(2020, current month 6, 1, 0, 0, 0). -/
theorem parse_only_year_affected_witness :
    ParseTimeWithFormatElements trivialZone [yyyyElement] [50, 48, 50, 48] 0
        .kNanoseconds = .ok 20200601 ∧
    ∃ y : Int, (20200601 : Int) =
      trivialZone.atCivilPre ⟨y, (trivialZone.atTimeCS 0).m, 1, 0, 0, 0⟩ :=
  ⟨by decide,
   parse_only_year_affected trivialZone [yyyyElement] [50, 48, 50, 48] 0
     .kNanoseconds 20200601 (by decide)⟩

/-! ### Uppercasing invariance lemmas (claim C5) -/

theorem upperByte_idem (b : Nat) : upperByte (upperByte b) = upperByte b := by
  unfold upperByte
  by_cases h : 97 ≤ b ∧ b ≤ 122
  · rw [if_pos h, if_neg (by omega)]
  · rw [if_neg h, if_neg h]

theorem asciiStrToUpper_cons (b : Nat) (rest : List Nat) :
    asciiStrToUpper (b :: rest) = upperByte b :: asciiStrToUpper rest := rfl

theorem asciiStrToUpper_idem (s : List Nat) :
    asciiStrToUpper (asciiStrToUpper s) = asciiStrToUpper s := by
  induction s with
  | nil => rfl
  | cons b rest ih =>
    show upperByte (upperByte b) :: asciiStrToUpper (asciiStrToUpper rest) =
      upperByte b :: asciiStrToUpper rest
    rw [upperByte_idem, ih]

theorem asciiStrToUpper_take (s : List Nat) (n : Nat) :
    (asciiStrToUpper s).take n = asciiStrToUpper (s.take n) := by
  unfold asciiStrToUpper
  rw [List.map_take]

theorem asciiStrToUpper_drop (s : List Nat) (n : Nat) :
    (asciiStrToUpper s).drop n = asciiStrToUpper (s.drop n) := by
  unfold asciiStrToUpper
  rw [List.map_drop]

theorem asciiIsAlpha_upperByte (b : Nat) :
    asciiIsAlpha (upperByte b) = asciiIsAlpha b := by
  unfold upperByte asciiIsAlpha
  by_cases h : 97 ≤ b ∧ b ≤ 122
  · rw [if_pos h]
    simp only [decide_eq_decide]
    omega
  · rw [if_neg h]

theorem isDigitByte_upperByte (b : Nat) :
    isDigitByte (upperByte b) = isDigitByte b := by
  unfold upperByte isDigitByte
  by_cases h : 97 ≤ b ∧ b ≤ 122
  · rw [if_pos h]
    simp only [decide_eq_decide]
    omega
  · rw [if_neg h]

theorem asciiIsLower_upperByte (b : Nat) :
    asciiIsLower (upperByte b) = false := by
  unfold upperByte asciiIsLower
  by_cases h2 : 97 ≤ b ∧ b ≤ 122
  · rw [if_pos h2]
    simp only [decide_eq_false_iff_not]
    omega
  · rw [if_neg h2]
    simp only [decide_eq_false_iff_not]
    omega

theorem upperByte_eq_nonletter (b c : Nat) (h1 : ¬(65 ≤ c ∧ c ≤ 90))
    (h2 : ¬(97 ≤ c ∧ c ≤ 122)) : (upperByte b = c) ↔ (b = c) := by
  unfold upperByte
  by_cases hb : 97 ≤ b ∧ b ≤ 122
  · rw [if_pos hb]
    omega
  · rw [if_neg hb]

theorem countSpaces_cons (x : Nat) (l : List Nat) :
    countSpaces (x :: l) = if x = 32 then countSpaces l + 1 else 0 := by
  unfold countSpaces
  rw [List.takeWhile_cons]
  by_cases hx : x = 32
  · simp [hx]
  · simp [hx]

theorem countSpaces_upper (s : List Nat) :
    countSpaces (asciiStrToUpper s) = countSpaces s := by
  induction s with
  | nil => rfl
  | cons b rest ih =>
    rw [asciiStrToUpper_cons, countSpaces_cons, countSpaces_cons, ih]
    by_cases hb : b = 32
    · rw [if_pos ((upperByte_eq_nonletter b 32 (by omega) (by omega)).mpr hb),
        if_pos hb]
    · rw [if_neg (fun hx => hb ((upperByte_eq_nonletter b 32 (by omega)
        (by omega)).mp hx)), if_neg hb]

theorem all_isDigit_upper (s : List Nat) :
    (asciiStrToUpper s).all isDigitByte = s.all isDigitByte := by
  induction s with
  | nil => rfl
  | cons b rest ih =>
    rw [asciiStrToUpper_cons]
    simp only [List.all_cons, isDigitByte_upperByte, ih]

theorem simpleAtoi_upper_isSome (s : List Nat) :
    (simpleAtoi (asciiStrToUpper s)).isSome = (simpleAtoi s).isSome := by
  cases s with
  | nil => rfl
  | cons b rest =>
    rw [asciiStrToUpper_cons]
    unfold simpleAtoi
    rw [show (upperByte b :: asciiStrToUpper rest).all isDigitByte =
        (b :: rest).all isDigitByte from by
      rw [← asciiStrToUpper_cons]
      exact all_isDigit_upper (b :: rest)]
    by_cases hall : (b :: rest).all isDigitByte = true
    · rw [if_pos hall, if_pos hall]
      rfl
    · rw [if_neg hall, if_neg hall]

theorem scanQuoted_shape (s : List Nat) : ∀ esc : Bool,
    (scanQuoted (asciiStrToUpper s) esc).toOption.map Prod.snd =
      (scanQuoted s esc).toOption.map Prod.snd := by
  induction s with
  | nil =>
    intro esc
    cases esc <;> rfl
  | cons c rest ih =>
    intro esc
    rw [asciiStrToUpper_cons]
    have h92 : (upperByte c = 92) ↔ (c = 92) :=
      upperByte_eq_nonletter c 92 (by omega) (by omega)
    have h34 : (upperByte c = 34) ↔ (c = 34) :=
      upperByte_eq_nonletter c 34 (by omega) (by omega)
    cases esc with
    | true =>
      rw [scanQuoted, scanQuoted]
      by_cases hc : c = 92 ∨ c = 34
      · have hc' : upperByte c = 92 ∨ upperByte c = 34 := by
          rcases hc with hc | hc
          · exact Or.inl (h92.mpr hc)
          · exact Or.inr (h34.mpr hc)
        rw [if_pos hc', if_pos hc]
        have hrec := ih false
        cases h1 : scanQuoted rest false with
        | ok p =>
          obtain ⟨lit, n⟩ := p
          rw [h1] at hrec
          cases h2 : scanQuoted (asciiStrToUpper rest) false with
          | ok q =>
            obtain ⟨lit2, n2⟩ := q
            rw [h2] at hrec
            simp only [Except.toOption, Option.map, Option.some.injEq] at hrec ⊢
            omega
          | error e =>
            rw [h2] at hrec
            simp [Except.toOption] at hrec
        | error e =>
          rw [h1] at hrec
          cases h2 : scanQuoted (asciiStrToUpper rest) false with
          | ok q =>
            rw [h2] at hrec
            simp [Except.toOption] at hrec
          | error e2 =>
            rfl
      · have hc' : ¬(upperByte c = 92 ∨ upperByte c = 34) := by
          intro hx
          rcases hx with hx | hx
          · exact hc (Or.inl (h92.mp hx))
          · exact hc (Or.inr (h34.mp hx))
        rw [if_neg hc', if_neg hc]
        rfl
    | false =>
      rw [scanQuoted, scanQuoted]
      by_cases hc92 : c = 92
      · rw [if_pos (h92.mpr hc92), if_pos hc92]
        have hrec := ih true
        cases h1 : scanQuoted rest true with
        | ok p =>
          obtain ⟨lit, n⟩ := p
          rw [h1] at hrec
          cases h2 : scanQuoted (asciiStrToUpper rest) true with
          | ok q =>
            obtain ⟨lit2, n2⟩ := q
            rw [h2] at hrec
            simp only [Except.toOption, Option.map, Option.some.injEq] at hrec ⊢
            omega
          | error e =>
            rw [h2] at hrec
            simp [Except.toOption] at hrec
        | error e =>
          rw [h1] at hrec
          cases h2 : scanQuoted (asciiStrToUpper rest) true with
          | ok q =>
            rw [h2] at hrec
            simp [Except.toOption] at hrec
          | error e2 =>
            rfl
      · rw [if_neg (fun hx => hc92 (h92.mp hx)), if_neg hc92]
        by_cases hc34 : c = 34
        · rw [if_pos (h34.mpr hc34), if_pos hc34]
        · rw [if_neg (fun hx => hc34 (h34.mp hx)), if_neg hc34]
          have hrec := ih false
          cases h1 : scanQuoted rest false with
          | ok p =>
            obtain ⟨lit, n⟩ := p
            rw [h1] at hrec
            cases h2 : scanQuoted (asciiStrToUpper rest) false with
            | ok q =>
              obtain ⟨lit2, n2⟩ := q
              rw [h2] at hrec
              simp only [Except.toOption, Option.map, Option.some.injEq] at hrec ⊢
              omega
            | error e =>
              rw [h2] at hrec
              simp [Except.toOption] at hrec
          | error e =>
            rw [h1] at hrec
            cases h2 : scanQuoted (asciiStrToUpper rest) false with
            | ok q =>
              rw [h2] at hrec
              simp [Except.toOption] at hrec
            | error e2 =>
              rfl

theorem casingNonEmpty_upper_isOk (cat : FormatElementCategory) (b0 : Nat)
    (rest : List Nat)
    (hsec : rest ≠ [] →
      ¬(cat = .kMeridianIndicator ∨ cat = .kEraIndicator) →
      asciiStrToUpper (b0 :: rest) ≠ [89, 44, 89, 89, 89] →
      asciiIsAlpha ((asciiStrToUpper (b0 :: rest)).getD 1 0) = true) :
    (casingNonEmpty (upperByte b0 :: asciiStrToUpper rest) (upperByte b0)
        (asciiStrToUpper rest) cat).isOk =
      (casingNonEmpty (b0 :: rest) b0 rest cat).isOk := by
  have hCiff : (cat = .kMeridianIndicator ∨ cat = .kEraIndicator ∨
      asciiStrToUpper rest = [] ∨
      asciiStrToUpper (upperByte b0 :: asciiStrToUpper rest) =
        [89, 44, 89, 89, 89]) ↔
      (cat = .kMeridianIndicator ∨ cat = .kEraIndicator ∨ rest = [] ∨
      asciiStrToUpper (b0 :: rest) = [89, 44, 89, 89, 89]) := by
    have e1 : (asciiStrToUpper rest = []) ↔ (rest = []) := by
      simp [asciiStrToUpper]
    have e2 : asciiStrToUpper (upperByte b0 :: asciiStrToUpper rest) =
        asciiStrToUpper (b0 :: rest) := by
      rw [← asciiStrToUpper_cons, asciiStrToUpper_idem]
    rw [e2, e1]
  unfold casingNonEmpty
  by_cases ha : asciiIsAlpha b0 = true
  · rw [if_pos ha, if_pos (show asciiIsAlpha (upperByte b0) = true from by
      rw [asciiIsAlpha_upperByte]; exact ha)]
    rw [if_neg (show ¬ asciiIsLower (upperByte b0) = true from by
      rw [asciiIsLower_upperByte b0]; exact Bool.false_ne_true)]
    by_cases hl : asciiIsLower b0 = true
    · rw [if_pos hl]
      by_cases hC : cat = .kMeridianIndicator ∨ cat = .kEraIndicator ∨
          rest = [] ∨ asciiStrToUpper (b0 :: rest) = [89, 44, 89, 89, 89]
      · rw [if_pos (hCiff.mpr hC)]
        rfl
      · rw [if_neg (fun h => hC (hCiff.mp h))]
        push_neg at hC
        obtain ⟨hC1, hC2, hC3, hC4⟩ := hC
        have halpha := hsec hC3 (by tauto) hC4
        cases rest with
        | nil => exact absurd rfl hC3
        | cons b1 rest2 =>
          rw [asciiStrToUpper_cons]
          show (if asciiIsAlpha (upperByte b1) = true then
              (if asciiIsUpper (upperByte b0) && asciiIsLower (upperByte b1) then
                (Except.ok FormatCasingType.kOnlyFirstLetterUppercase :
                  Except TokError FormatCasingType)
              else .ok .kAllLettersUppercase)
            else .error .retCheckFailure).isOk =
            (Except.ok FormatCasingType.kAllLettersLowercase).isOk
          have halpha2 : asciiIsAlpha (upperByte b1) = true := by
            rw [asciiStrToUpper_cons, asciiStrToUpper_cons] at halpha
            simpa using halpha
          rw [if_pos halpha2]
          split <;> rfl
    · rw [if_neg hl]
      by_cases hC : cat = .kMeridianIndicator ∨ cat = .kEraIndicator ∨
          rest = [] ∨ asciiStrToUpper (b0 :: rest) = [89, 44, 89, 89, 89]
      · rw [if_pos (hCiff.mpr hC), if_pos hC]
      · rw [if_neg (fun h => hC (hCiff.mp h)), if_neg hC]
        push_neg at hC
        obtain ⟨hC1, hC2, hC3, hC4⟩ := hC
        cases rest with
        | nil => exact absurd rfl hC3
        | cons b1 rest2 =>
          rw [asciiStrToUpper_cons]
          show (if asciiIsAlpha (upperByte b1) = true then
              (if asciiIsUpper (upperByte b0) && asciiIsLower (upperByte b1) then
                (Except.ok FormatCasingType.kOnlyFirstLetterUppercase :
                  Except TokError FormatCasingType)
              else .ok .kAllLettersUppercase)
            else .error .retCheckFailure).isOk =
            (if asciiIsAlpha b1 = true then
              (if asciiIsUpper b0 && asciiIsLower b1 then
                (Except.ok FormatCasingType.kOnlyFirstLetterUppercase :
                  Except TokError FormatCasingType)
              else .ok .kAllLettersUppercase)
            else .error .retCheckFailure).isOk
          rw [asciiIsAlpha_upperByte]
          by_cases hb1 : asciiIsAlpha b1 = true
          · rw [if_pos hb1, if_pos hb1]
            split <;> split <;> rfl
          · rw [if_neg hb1, if_neg hb1]
  · rw [if_neg ha, if_neg (show ¬ asciiIsAlpha (upperByte b0) = true from by
      rw [asciiIsAlpha_upperByte]; exact ha)]

theorem casing_upper_isOk (cat : FormatElementCategory) (s : List Nat)
    (hsec : 2 ≤ s.length →
      ¬(cat = .kMeridianIndicator ∨ cat = .kEraIndicator) →
      asciiStrToUpper s ≠ [89, 44, 89, 89, 89] →
      asciiIsAlpha ((asciiStrToUpper s).getD 1 0) = true) :
    (GetFormatCasingTypeOfNonLiteralElements (asciiStrToUpper s) cat).isOk =
      (GetFormatCasingTypeOfNonLiteralElements s cat).isOk := by
  unfold GetFormatCasingTypeOfNonLiteralElements
  by_cases hlit : cat = .kLiteral
  · rw [if_pos hlit, if_pos hlit]
  · rw [if_neg hlit, if_neg hlit]
    cases s with
    | nil => rfl
    | cons b0 rest =>
      rw [asciiStrToUpper_cons]
      show (casingNonEmpty (upperByte b0 :: asciiStrToUpper rest) (upperByte b0)
          (asciiStrToUpper rest) cat).isOk =
        (casingNonEmpty (b0 :: rest) b0 rest cat).isOk
      refine casingNonEmpty_upper_isOk cat b0 rest (fun hne hcats hkey => ?_)
      refine hsec ?_ hcats hkey
      cases rest with
      | nil => exact absurd rfl hne
      | cons x xs => simp only [List.length_cons]; omega

theorem entries_second_alpha :
    ∀ p ∈ formatElementTypeTrieEntries,
      GetFormatElementCategoryFromType p.2 ≠ .kLiteral →
      ¬(GetFormatElementCategoryFromType p.2 = .kMeridianIndicator ∨
        GetFormatElementCategoryFromType p.2 = .kEraIndicator) →
      p.1 ≠ [89, 44, 89, 89, 89] →
      2 ≤ p.1.length →
      asciiIsAlpha (p.1.getD 1 0) = true := by
  decide

theorem getNextNonLiteral_shape (fs : List Nat) (ty : FormatElementType)
    (l : Nat)
    (hcasing : (GetFormatCasingTypeOfNonLiteralElements
        ((asciiStrToUpper fs).take l) (GetFormatElementCategoryFromType ty)).isOk =
      (GetFormatCasingTypeOfNonLiteralElements (fs.take l)
        (GetFormatElementCategoryFromType ty)).isOk) :
    (getNextNonLiteral (asciiStrToUpper fs) ty l).toOption.map elemShape =
      (getNextNonLiteral fs ty l).toOption.map elemShape := by
  unfold getNextNonLiteral
  cases h1 : GetFormatCasingTypeOfNonLiteralElements (fs.take l)
      (GetFormatElementCategoryFromType ty) with
  | error e =>
    rw [h1] at hcasing
    cases h2 : GetFormatCasingTypeOfNonLiteralElements
        ((asciiStrToUpper fs).take l) (GetFormatElementCategoryFromType ty) with
    | ok c2 =>
      rw [h2] at hcasing
      simp [Except.isOk, Except.toBool] at hcasing
    | error e2 => rfl
  | ok c =>
    rw [h1] at hcasing
    cases h2 : GetFormatCasingTypeOfNonLiteralElements
        ((asciiStrToUpper fs).take l) (GetFormatElementCategoryFromType ty) with
    | error e2 =>
      rw [h2] at hcasing
      simp [Except.isOk, Except.toBool] at hcasing
    | ok c2 =>
      by_cases hffn : ty = .kFFN
      · rw [show ((asciiStrToUpper fs).drop 2).take (l - 2) =
            asciiStrToUpper ((fs.drop 2).take (l - 2)) from by
          rw [asciiStrToUpper_drop, asciiStrToUpper_take]]
        have hat := simpleAtoi_upper_isSome ((fs.drop 2).take (l - 2))
        cases ha1 : simpleAtoi ((fs.drop 2).take (l - 2)) with
        | none =>
          rw [ha1] at hat
          cases ha2 : simpleAtoi (asciiStrToUpper ((fs.drop 2).take (l - 2))) with
          | some n =>
            rw [ha2] at hat
            simp at hat
          | none => simp [hffn, Except.toOption]
        | some n =>
          rw [ha1] at hat
          cases ha2 : simpleAtoi (asciiStrToUpper ((fs.drop 2).take (l - 2))) with
          | none =>
            rw [ha2] at hat
            simp at hat
          | some n2 => simp [hffn, elemShape, Except.toOption]
      · simp [hffn, elemShape, Except.toOption]

theorem getNextLiteral_shape (fs : List Nat) (ty : FormatElementType) (l : Nat) :
    (getNextLiteral (asciiStrToUpper fs) ty l).toOption.map elemShape =
      (getNextLiteral fs ty l).toOption.map elemShape := by
  unfold getNextLiteral
  by_cases h1 : ty = .kSimpleLiteral
  · rw [if_pos h1, if_pos h1]
    rfl
  · rw [if_neg h1, if_neg h1]
    by_cases h2 : ty = .kWhitespace
    · rw [if_pos h2, if_pos h2]
      have hcs : countSpaces ((asciiStrToUpper fs).drop l) =
          countSpaces (fs.drop l) := by
        rw [asciiStrToUpper_drop]
        exact countSpaces_upper (fs.drop l)
      simp [elemShape, hcs, Except.toOption]
    · rw [if_neg h2, if_neg h2]
      by_cases h3 : ty = .kDoubleQuotedLiteral
      · rw [if_pos h3, if_pos h3]
        rw [asciiStrToUpper_drop]
        have hsh := scanQuoted_shape (fs.drop 1) false
        cases hq1 : scanQuoted (fs.drop 1) false with
        | ok p =>
          obtain ⟨lit, n⟩ := p
          rw [hq1] at hsh
          cases hq2 : scanQuoted (asciiStrToUpper (fs.drop 1)) false with
          | error e =>
            rw [hq2] at hsh
            simp [Except.toOption] at hsh
          | ok q =>
            obtain ⟨lit2, n2⟩ := q
            rw [hq2] at hsh
            simp only [Except.toOption, Option.map, Option.some.injEq] at hsh
            simp [elemShape, hsh, Except.toOption]
        | error e =>
          rw [hq1] at hsh
          cases hq2 : scanQuoted (asciiStrToUpper (fs.drop 1)) false with
          | ok q =>
            rw [hq2] at hsh
            simp [Except.toOption] at hsh
          | error e2 => rfl
      · rw [if_neg h3, if_neg h3]

theorem getNext_shape (fs : List Nat) :
    (GetNextDateTimeFormatElement (asciiStrToUpper fs)).toOption.map elemShape =
      (GetNextDateTimeFormatElement fs).toOption.map elemShape := by
  unfold GetNextDateTimeFormatElement
  rw [asciiStrToUpper_idem]
  cases htrie : GetDataForMaximalPrefix (asciiStrToUpper fs) with
  | none => rfl
  | some tl =>
    obtain ⟨ty, l⟩ := tl
    simp only [getNextWithTrieResult]
    by_cases hcat : GetFormatElementCategoryFromType ty ≠ .kLiteral
    · rw [if_pos hcat, if_pos hcat]
      refine getNextNonLiteral_shape fs ty l ?_
      rw [asciiStrToUpper_take]
      refine casing_upper_isOk _ _ (fun hlen2 hcats hkey => ?_)
      obtain ⟨hmem, hlen⟩ := GetDataForMaximalPrefix_spec _ _ _ htrie
      rw [asciiStrToUpper_take] at hmem
      have h5 : 2 ≤ ((asciiStrToUpper (List.take l fs), ty)).1.length := by
        show 2 ≤ (asciiStrToUpper (List.take l fs)).length
        rw [length_asciiStrToUpper]
        exact hlen2
      exact entries_second_alpha _ hmem hcat hcats hkey h5
    · rw [if_neg hcat, if_neg hcat]
      exact getNextLiteral_shape fs ty l

theorem getElementsAux_types (fuel : Nat) : ∀ (s : List Nat) (p : Nat),
    (getElementsAux fuel (asciiStrToUpper s) p).toOption.map
        (List.map (fun fe => fe.type)) =
      (getElementsAux fuel s p).toOption.map (List.map (fun fe => fe.type)) := by
  induction fuel with
  | zero =>
    intro s p
    cases s with
    | nil => rfl
    | cons b rest => rfl
  | succ fuel ih =>
    intro s p
    cases s with
    | nil => rfl
    | cons b rest =>
      have hshape := getNext_shape (b :: rest)
      cases hnext : GetNextDateTimeFormatElement (b :: rest) with
      | error e =>
        rw [hnext] at hshape
        cases hnext2 : GetNextDateTimeFormatElement
            (asciiStrToUpper (b :: rest)) with
        | ok fe2 =>
          rw [hnext2] at hshape
          simp [Except.toOption] at hshape
        | error e2 =>
          rw [asciiStrToUpper_cons] at hnext2
          rw [asciiStrToUpper_cons]
          simp only [getElementsAux, hnext, hnext2]
          rfl
      | ok fe =>
        rw [hnext] at hshape
        cases hnext2 : GetNextDateTimeFormatElement
            (asciiStrToUpper (b :: rest)) with
        | error e2 =>
          rw [hnext2] at hshape
          simp [Except.toOption] at hshape
        | ok fe2 =>
          rw [hnext2] at hshape
          simp only [Except.toOption, Option.map, Option.some.injEq] at hshape
          have hty : fe2.type = fe.type := congrArg Prod.fst hshape
          have hlen : fe2.len_in_format_str = fe.len_in_format_str :=
            congrArg Prod.snd hshape
          rw [asciiStrToUpper_cons] at hnext2
          rw [asciiStrToUpper_cons]
          simp only [getElementsAux, hnext, hnext2]
          rw [hlen]
          have hdrop : (upperByte b :: asciiStrToUpper rest).drop
              fe.len_in_format_str =
              asciiStrToUpper ((b :: rest).drop fe.len_in_format_str) := by
            rw [← asciiStrToUpper_cons, asciiStrToUpper_drop]
          rw [hdrop]
          have hrec := ih ((b :: rest).drop fe.len_in_format_str)
            (p + fe.len_in_format_str)
          cases hx1 : getElementsAux fuel ((b :: rest).drop fe.len_in_format_str)
              (p + fe.len_in_format_str) with
          | error e =>
            rw [hx1] at hrec
            cases hx2 : getElementsAux fuel
                (asciiStrToUpper ((b :: rest).drop fe.len_in_format_str))
                (p + fe.len_in_format_str) with
            | ok fes2 =>
              rw [hx2] at hrec
              simp [Except.toOption] at hrec
            | error e2 => rfl
          | ok fes =>
            rw [hx1] at hrec
            cases hx2 : getElementsAux fuel
                (asciiStrToUpper ((b :: rest).drop fe.len_in_format_str))
                (p + fe.len_in_format_str) with
            | error e2 =>
              rw [hx2] at hrec
              simp [Except.toOption] at hrec
            | ok fes2 =>
              rw [hx2] at hrec
              simp only [Except.toOption, Option.map, Option.some.injEq] at hrec ⊢
              rw [List.map_cons, List.map_cons, hty, hrec]

/-- C5.  Tokenization is case-insensitive in the element types it produces:
for every format string `F`, tokenizing the ASCII-upper-cased `F` yields the
same sequence of element types (and the same success/failure outcome) as
tokenizing `F` itself — while the casing policy is derived from the original
bytes, as the concrete triples show: `mon`, `Mon` and `MON` all tokenize to
the single type `kMON` but with all-lowercase, first-letter-uppercase and
all-uppercase policy respectively. -/
theorem tokenize_case_insensitive :
    (∀ F : List Nat,
      (GetDateTimeFormatElements (asciiStrToUpper F)).toOption.map
          (List.map (fun fe => fe.type)) =
        (GetDateTimeFormatElements F).toOption.map
          (List.map (fun fe => fe.type))) ∧
    (GetDateTimeFormatElements [109, 111, 110]).toOption.map
        (List.map (fun fe => (fe.type, fe.format_casing_type))) =
      some [(.kMON, .kAllLettersLowercase)] ∧
    (GetDateTimeFormatElements [77, 111, 110]).toOption.map
        (List.map (fun fe => (fe.type, fe.format_casing_type))) =
      some [(.kMON, .kOnlyFirstLetterUppercase)] ∧
    (GetDateTimeFormatElements [77, 79, 78]).toOption.map
        (List.map (fun fe => (fe.type, fe.format_casing_type))) =
      some [(.kMON, .kAllLettersUppercase)] := by
  refine ⟨?_, by decide!, by decide!, by decide!⟩
  intro F
  unfold GetDateTimeFormatElements
  rw [length_asciiStrToUpper]
  exact getElementsAux_types F.length F 0

end Zetasql
